import Mathlib

/-!
# Game of Life for the Nokia Lights Player: a verification development

A shallow embedding of `animate.c` and of the parts of `lib.c` it calls.

* `board_t` is the C array `uint32_t data[HEIGHT][WIDTH]`, read as a function of
  (row, column); only the cells with row < 6 and column < 16 belong to the object.
* C `for` loops are folds over the list of values the loop variable takes.
* A store `a[i][j] = v` is a pointwise function update.
* `rand()` is a stream: `rand k` is the value returned by the k-th call.
-/

namespace GameOfLife

/-! ## Data model -/

/-- Board width, `#define WIDTH 16`. -/
def WIDTH : Nat := 16

/-- Board height, `#define HEIGHT 6`. -/
def HEIGHT : Nat := 6

/-- Internal representation of the board: `uint32_t data[HEIGHT][WIDTH]`. -/
structure board_t where
  data : Nat → Nat → Nat

/-- The store `board->data[i][j] = v`. -/
def board_t.set (b : board_t) (i j v : Nat) : board_t :=
  ⟨fun i' j' => if i' = i ∧ j' = j then v else b.data i' j'⟩

/-- Enumerator `STATE_DEAD = 0` of `pixel_state`. -/
def STATE_DEAD : Nat := 0

/-- Enumerator `STATE_ALIVE = 1` of `pixel_state`. -/
def STATE_ALIVE : Nat := 1

/-- Enumerator `STATE_DYING = 2` of `pixel_state`. -/
def STATE_DYING : Nat := 2

/-- The array `board_t board[2]`. -/
structure boards_t where
  b0 : board_t
  b1 : board_t

/-- The element `board[k]`; the callers pass `k` in {0, 1}. -/
def boards_t.get (b : boards_t) (k : Nat) : board_t :=
  if k = 0 then b.b0 else b.b1

/-- Replacing the element `board[k]`; the callers pass `k` in {0, 1}. -/
def boards_t.put (b : boards_t) (k : Nat) (v : board_t) : boards_t :=
  if k = 0 then { b with b0 := v } else { b with b1 := v }

/-- C logical negation `!a` on an unsigned value. -/
def lnot (a : Nat) : Nat := if a = 0 then 1 else 0

/-! ## Game functions -/

/-- Number of alive cells neighbouring with the cell at row `y`, column `x`
(`neighbours` of animate.c). The C remainder `%` truncates, hence `Int.tmod`. -/
def neighbours (board : board_t) (y x : Int) : Nat :=
  [y - 1, y, y + 1].foldl (fun neighb_sum i =>
    [x - 1, x, x + 1].foldl (fun neighb_sum j =>
      let ii : Int := if i < 0 then i + HEIGHT else Int.tmod i HEIGHT
      let jj : Int := if j < 0 then j + WIDTH else Int.tmod j WIDTH
      if ¬ (i = y ∧ j = x) ∧ board.data ii.toNat jj.toNat = 1 then neighb_sum + 1
      else neighb_sum) neighb_sum) 0

/-- Fills the board with a given initial configuration (`fill_board`). -/
def fill_board (board : board_t) (config : Nat → Nat → Nat) : board_t :=
  (List.range HEIGHT).foldl (fun board i =>
    (List.range WIDTH).foldl (fun board j => board.set i j (config i j)) board) board

/-- Loads a given config to the game (`load_config`): first `board[1]`, then `board[0]`. -/
def load_config (board : boards_t) (config : Nat → Nat → Nat) : boards_t :=
  let board := board.put 1 (fill_board (board.get 1) config)
  board.put 0 (fill_board (board.get 0) config)

/-- What `step` leaves behind: the board pair, `*active` and `*is_alive`. -/
structure step_t where
  board : boards_t
  active : Nat
  is_alive : Nat

/-- The choice of `state_next` in `step`, from the neighbour count `n` and the
cell's `previous` state; the initialiser `STATE_DEAD` is the value kept when no branch fires. -/
def state_next (n previous : Nat) : Nat :=
  if n = 2 then (if previous = STATE_DYING then STATE_DEAD else previous)
  else if n = 3 then STATE_ALIVE
  else if n < 2 ∨ n > 3 then (if previous = STATE_ALIVE then STATE_DYING else STATE_DEAD)
  else STATE_DEAD

/-- The body of the inner loop of `step` for the cell (i, j); the state is the
board pair together with `*is_alive`. -/
def step_cell (active : Nat) (st : boards_t × Nat) (i j : Nat) : boards_t × Nat :=
  let board := st.1
  let is_alive := st.2
  let n : Nat := neighbours (board.get active) i j
  let previous : Nat := (board.get active).data i j
  let board := board.put (lnot active) ((board.get (lnot active)).set i j (state_next n previous))
  let is_alive := if (board.get (lnot active)).data i j = STATE_ALIVE then 1 else is_alive
  (board, is_alive)

/-- Single game step (`step`): the value of `*is_alive` on entry is overwritten with 0,
every cell is visited row by row, and `*active` is negated at the end. -/
def step (board : boards_t) (active _is_alive : Nat) : step_t :=
  let is_alive := 0
  let st := (List.range HEIGHT).foldl (fun st i =>
    (List.range WIDTH).foldl (fun st j => step_cell active st i j) st) (board, is_alive)
  ⟨st.1, lnot active, st.2⟩

/-! ## Seed configurations -/

/-- A constant `uint8_t [HEIGHT][WIDTH]` table written row by row, read as a function of
(row, column). -/
def of_rows (rows : List (List Nat)) : Nat → Nat → Nat :=
  fun i j => (rows.getD i []).getD j 0

/-- Example configuration: glider (`CONFIG_GLIDER`). -/
def CONFIG_GLIDER : Nat → Nat → Nat := of_rows [
  [0, 0, 0, 0, 0, 0, 0, 0, 0, 0, 0, 0, 0, 0, 0, 0],
  [0, 0, 0, 0, 1, 0, 0, 0, 0, 0, 0, 0, 0, 0, 0, 0],
  [0, 0, 0, 0, 0, 1, 0, 0, 0, 0, 0, 0, 0, 0, 0, 0],
  [0, 0, 0, 1, 1, 1, 0, 0, 0, 0, 0, 0, 0, 0, 0, 0],
  [0, 0, 0, 0, 0, 0, 0, 0, 0, 0, 0, 0, 0, 0, 0, 0],
  [0, 0, 0, 0, 0, 0, 0, 0, 0, 0, 0, 0, 0, 0, 0, 0]]

/-- A slightly more interesting configuration, consisting of few gliders
(`CONFIG_DEFAULT`). -/
def CONFIG_DEFAULT : Nat → Nat → Nat := of_rows [
  [1, 0, 0, 0, 0, 0, 0, 0, 0, 0, 0, 0, 0, 0, 0, 0],
  [0, 1, 0, 0, 1, 0, 0, 0, 0, 0, 0, 0, 0, 0, 0, 0],
  [1, 1, 0, 0, 0, 1, 0, 0, 0, 0, 0, 0, 0, 0, 0, 1],
  [0, 0, 0, 1, 1, 1, 0, 0, 0, 0, 1, 1, 0, 0, 0, 0],
  [0, 0, 0, 0, 0, 0, 0, 0, 0, 0, 0, 0, 1, 0, 0, 0],
  [0, 0, 0, 0, 0, 0, 0, 0, 0, 0, 1, 1, 1, 0, 0, 0]]

/-- Alternating configuration, shown when all cells have died (`CONFIG_ALTERNATE`). -/
def CONFIG_ALTERNATE : Nat → Nat → Nat := of_rows [
  [0, 0, 1, 0, 0, 0, 0, 0, 0, 0, 0, 1, 1, 0, 0, 0],
  [0, 1, 1, 1, 0, 0, 0, 0, 1, 0, 1, 0, 0, 1, 0, 0],
  [1, 0, 0, 1, 0, 0, 0, 1, 0, 0, 0, 1, 1, 0, 0, 0],
  [0, 1, 1, 0, 0, 0, 1, 0, 1, 0, 0, 0, 0, 0, 0, 0],
  [0, 0, 0, 0, 0, 0, 1, 0, 1, 0, 0, 0, 0, 0, 0, 0],
  [0, 0, 0, 0, 0, 0, 0, 1, 0, 0, 0, 0, 0, 0, 0, 0]]

/-! ## Frames and colours -/

/-- Single RGB pixel (`pixel_t` of lib.h), three `uint8_t` channels. -/
structure pixel_t where
  r : Nat
  g : Nat
  b : Nat
deriving DecidableEq, Repr

/-- Full frame (`frame_t` of lib.h): `uint16_t delay` and `pixel[WIDTH*HEIGHT]`. -/
structure frame_t where
  delay : Nat
  pixel : Nat → pixel_t

/-- The store `frame->pixel[k] = c`. -/
def frame_t.set (f : frame_t) (k : Nat) (c : pixel_t) : frame_t :=
  { f with pixel := fun k' => if k' = k then c else f.pixel k' }

/-- Constant `PIXEL_BLACK`. -/
def PIXEL_BLACK : pixel_t := ⟨0, 0, 0⟩

/-- Constant `PIXEL_DEAD`. -/
def PIXEL_DEAD : pixel_t := ⟨54, 172, 58⟩

/-- Constant `PIXEL_DYING`. -/
def PIXEL_DYING : pixel_t := ⟨184, 172, 58⟩

/-- Completely random color (`random_color`): three calls of `rand()`, numbers `k`, `k+1`
and `k+2` of the stream, each reduced `% 255` and stored in a `uint8_t`. Returns the
colour and the number of the next call. -/
def random_color (rand : Nat → Nat) (k : Nat) : pixel_t × Nat :=
  (⟨rand k % 255 % 256, rand (k + 1) % 255 % 256, rand (k + 2) % 255 % 256⟩, k + 3)

/-- Random green color (`random_dead_color`): fixed green level, red and blue levels
randomized in a range. -/
def random_dead_color (rand : Nat → Nat) (k : Nat) : pixel_t × Nat :=
  (⟨rand k % 128 % 256, 236, rand (k + 1) % 50 % 256⟩, k + 2)

/-- Fills a single animation frame (`fill_frame`). The table `colors` has three entries;
a cell value of 3 or more would index outside it, and the model reads `PIXEL_BLACK`
there. Returns the frame and the number of the next `rand()` call. -/
def fill_frame (frame : frame_t) (active_board : board_t) (rand : Nat → Nat) (k : Nat) :
    frame_t × Nat :=
  let dead := random_dead_color rand k
  let alive := random_color rand dead.2
  let colors : List pixel_t := [dead.1, alive.1, PIXEL_DYING]
  let frame := (List.range HEIGHT).foldl (fun frame y =>
    (List.range WIDTH).foldl (fun frame x =>
      frame.set (x + (y * WIDTH)) (colors.getD (active_board.data y x) PIXEL_BLACK)) frame) frame
  (frame, alive.2)

/-! ## The animation -/

/-- The variables of `animate` together with what it shares with lib.c: the
accumulator `time_acc`, the frames written to the output so far (`out`, oldest first),
and the number of `rand()` calls made so far (`calls`). -/
structure anim_t where
  is_alive : Nat
  frame : frame_t
  frame_out : frame_t
  frame_between : frame_t
  fade : Int
  fade_dir : Int
  board : boards_t
  active : Nat
  time_acc : Nat
  out : List frame_t
  calls : Nat

/-- Writes single frame to output (`write_frame` of lib.c), on the path where `fwrite`
succeeds: the `uint32_t` accumulator advances by the frame's delay, modulo 2^32. -/
def write_frame (s : anim_t) (frame : frame_t) : anim_t :=
  { s with time_acc := (s.time_acc + frame.delay) % 4294967296, out := s.out ++ [frame] }

/-- Gets total animation time (`total_time` of lib.c). -/
def total_time (s : anim_t) : Nat := s.time_acc

/-- The fade scale of one channel, `(c * fade) / 256` computed in `int` (the C division
truncates) and stored in a `uint8_t`. -/
def fade_scale (c : Nat) (fade : Int) : Nat :=
  (Int.tdiv ((c : Int) * fade) 256 % 256).toNat

/-- The loop of `animate` that fills `frame_between`: one `random_color` per row. -/
def fill_between (frame_between : frame_t) (rand : Nat → Nat) (k : Nat) : frame_t × Nat :=
  (List.range HEIGHT).foldl (fun st y =>
    let row_color := random_color rand st.2
    ((List.range WIDTH).foldl (fun frame x => frame.set (x + (y * WIDTH)) row_color.1) st.1,
      row_color.2)) (frame_between, k)

/-- The loop of `animate` that dims `frame` into `frame_out`, channel by channel. -/
def fade_frame (frame_out frame : frame_t) (fade : Int) : frame_t :=
  (List.range HEIGHT).foldl (fun frame_out y =>
    (List.range WIDTH).foldl (fun frame_out x =>
      frame_out.set (x + (WIDTH * y))
        ⟨fade_scale (frame.pixel (x + (WIDTH * y))).r fade,
         fade_scale (frame.pixel (x + (WIDTH * y))).g fade,
         fade_scale (frame.pixel (x + (WIDTH * y))).b fade⟩) frame_out) frame_out

/-- The state of `animate` when it reaches `while (fade > 0)` for the first time.
`junk` and `junk_between` stand for the uninitialised pixels of `frame_out` and
`frame_between`; `time_acc` starts from its initialiser 0. -/
def animate_init (rand : Nat → Nat) (junk junk_between : Nat → pixel_t) : anim_t :=
  let frame : frame_t := ⟨200, fun _ => ⟨0, 0, 0⟩⟩
  let frame_out : frame_t := ⟨50, junk⟩
  let frame_between : frame_t := ⟨400, junk_between⟩
  let between := fill_between frame_between rand 0
  let zero : board_t := ⟨fun _ _ => STATE_DEAD⟩
  let s : anim_t :=
    { is_alive := 1, frame := frame, frame_out := frame_out, frame_between := between.1,
      fade := 256, fade_dir := 8, board := ⟨zero, zero⟩, active := 1,
      time_acc := 0, out := [], calls := between.2 }
  let s := write_frame s s.frame
  { s with board := load_config s.board CONFIG_DEFAULT }

/-- One pass through the body of `while (fade > 0)` in `animate`. -/
def animate_body (rand : Nat → Nat) (timeout : Nat) (s : anim_t) : anim_t :=
  -- Let's play the Game of Life
  let st := step s.board s.active s.is_alive
  let s := { s with board := st.board, active := st.active, is_alive := st.is_alive }
  -- Fill all pixels with color
  let fr := fill_frame s.frame (s.board.get s.active) rand s.calls
  let s := { s with frame := fr.1, calls := fr.2 }
  let s :=
    if s.is_alive = 0 then
      let s := write_frame s s.frame_between
      { s with board := load_config s.board CONFIG_ALTERNATE }
    else s
  -- Fade in & out
  let s :=
    if total_time s > timeout ∧ s.fade ≥ 256 then
      { s with fade := 255, fade_dir := -s.fade_dir }
    else s
  let s :=
    if s.fade > 0 ∧ s.fade < 256 then
      { s with frame_out := fade_frame s.frame_out s.frame s.fade, fade := s.fade + s.fade_dir }
    else s
  -- Output frame
  write_frame s (if s.fade < 256 then s.frame_out else s.frame)

/-- The loop `while (fade > 0)` run for at most `fuel` passes: `none` when the
condition still holds after `fuel` passes. -/
def animate_loop (rand : Nat → Nat) (timeout : Nat) : Nat → anim_t → Option anim_t
  | 0, s => if s.fade > 0 then none else some s
  | fuel + 1, s =>
    if s.fade > 0 then animate_loop rand timeout fuel (animate_body rand timeout s) else some s

/-- The function `animate(timeout)` with a bound on the number of passes; the result is
the final state, whose `out` is the sequence of frames written. -/
def animate (rand : Nat → Nat) (junk junk_between : Nat → pixel_t) (timeout : Nat)
    (fuel : Nat) : Option anim_t :=
  animate_loop rand timeout fuel (animate_init rand junk junk_between)

/-- The state of `animate` at the loop condition after `n` passes, or the final state
when the loop has ended before. -/
def animate_after (rand : Nat → Nat) (timeout : Nat) : Nat → anim_t → anim_t
  | 0, s => s
  | n + 1, s => if s.fade > 0 then animate_after rand timeout n (animate_body rand timeout s) else s

/-! ## Specification-side definitions -/

/-- The eight offsets (dr, dc) of {-1,0,1}² without (0,0). -/
def offsets : List (Int × Int) :=
  [(-1, -1), (-1, 0), (-1, 1), (0, -1), (0, 1), (1, -1), (1, 0), (1, 1)]

/-- The number of cells in state Alive among the eight positions
((row+dr) mod 6, (col+dc) mod 16), with the non-negative modulo. -/
def alive_around (b : board_t) (row col : Nat) : Nat :=
  offsets.countP (fun d =>
    b.data (((row : Int) + d.1) % 6).toNat (((col : Int) + d.2) % 16).toNat = 1)

/-- The board with every Dying cell replaced by a Dead one. -/
def undying (b : board_t) : board_t :=
  ⟨fun i j => if b.data i j = STATE_DYING then STATE_DEAD else b.data i j⟩

/-- The per-cell rule as the specification words it: 3 neighbours give Alive; 2 neighbours
keep a Dead or Alive cell and make a Dying one Dead; otherwise Alive becomes Dying and
the rest Dead. -/
def rule (n previous : Nat) : Nat :=
  if n = 3 then STATE_ALIVE
  else if n = 2 then
    (if previous = STATE_DEAD ∨ previous = STATE_ALIVE then previous else STATE_DEAD)
  else (if previous = STATE_ALIVE then STATE_DYING else STATE_DEAD)

/-- The value `step` stores in the cell (i, j) when it reads the board `b`. -/
def next_cell (b : board_t) (i j : Nat) : Nat :=
  state_next (neighbours b i j) (b.data i j)

/-- A board for the corner (0, 15): that cell and (5, 0) are Alive, (5, 15) and (0, 0) are
Dying, every other cell is Dead. -/
def corner_board : board_t :=
  ⟨fun i j =>
    if (i = 0 ∧ j = 15) ∨ (i = 5 ∧ j = 0) then STATE_ALIVE
    else if (i = 5 ∧ j = 15) ∨ (i = 0 ∧ j = 0) then STATE_DYING
    else STATE_DEAD⟩

/-- A board pair for the examples: `board[1]` holds the glider seed, `board[0]` holds a
Dying cell at (2, 2) with the two Alive neighbours (1, 1) and (3, 3), and stale 7s in row 5. -/
def sample_boards : boards_t :=
  ⟨⟨fun i j =>
      if i = 2 ∧ j = 2 then STATE_DYING
      else if (i = 1 ∧ j = 1) ∨ (i = 3 ∧ j = 3) then STATE_ALIVE
      else if i = 5 then 7 else STATE_DEAD⟩,
   ⟨CONFIG_GLIDER⟩⟩

/-- A board pair whose `board[1]` holds one Alive cell, at (2, 2), and whose `board[0]` is
all Dead. -/
def lonely_boards : boards_t :=
  ⟨⟨fun _ _ => STATE_DEAD⟩, ⟨fun i j => if i = 2 ∧ j = 2 then STATE_ALIVE else STATE_DEAD⟩⟩

/-- A state of `animate` whose active board, `board[0]`, is all Dead while `board[1]`
still holds an Alive cell. -/
def dead_anim : anim_t :=
  { is_alive := 1, frame := ⟨200, fun _ => PIXEL_BLACK⟩, frame_out := ⟨50, fun _ => PIXEL_BLACK⟩,
    frame_between := ⟨400, fun _ => PIXEL_DEAD⟩, fade := 256, fade_dir := 8,
    board := lonely_boards, active := 0, time_acc := 200, out := [], calls := 18 }

/-- The state of `animate` at the loop condition after `n` passes from its start. -/
def loop_state (rand : Nat → Nat) (junk junk_between : Nat → pixel_t) (timeout n : Nat) :
    anim_t :=
  animate_after rand timeout n (animate_init rand junk junk_between)

/-- Calling `step` `n` times in a row on the same board pair and flags. -/
def step_times : Nat → step_t → step_t
  | 0, s => s
  | n + 1, s => step_times n (step s.board s.active s.is_alive)

/-- The glider seed shifted one row down and one column right. -/
def glider_shifted : Nat → Nat → Nat :=
  fun i j => if i = 0 ∨ j = 0 then 0 else CONFIG_GLIDER (i - 1) (j - 1)

/-- The active board one `step` after the glider seed. -/
def glider_1 : Nat → Nat → Nat := of_rows [
  [0, 0, 0, 0, 0, 0, 0, 0, 0, 0, 0, 0, 0, 0, 0, 0],
  [0, 0, 0, 0, 2, 0, 0, 0, 0, 0, 0, 0, 0, 0, 0, 0],
  [0, 0, 0, 1, 0, 1, 0, 0, 0, 0, 0, 0, 0, 0, 0, 0],
  [0, 0, 0, 2, 1, 1, 0, 0, 0, 0, 0, 0, 0, 0, 0, 0],
  [0, 0, 0, 0, 1, 0, 0, 0, 0, 0, 0, 0, 0, 0, 0, 0],
  [0, 0, 0, 0, 0, 0, 0, 0, 0, 0, 0, 0, 0, 0, 0, 0]]

/-- The active board two `step`s after the glider seed. -/
def glider_2 : Nat → Nat → Nat := of_rows [
  [0, 0, 0, 0, 0, 0, 0, 0, 0, 0, 0, 0, 0, 0, 0, 0],
  [0, 0, 0, 0, 0, 0, 0, 0, 0, 0, 0, 0, 0, 0, 0, 0],
  [0, 0, 0, 2, 0, 1, 0, 0, 0, 0, 0, 0, 0, 0, 0, 0],
  [0, 0, 0, 1, 2, 1, 0, 0, 0, 0, 0, 0, 0, 0, 0, 0],
  [0, 0, 0, 0, 1, 1, 0, 0, 0, 0, 0, 0, 0, 0, 0, 0],
  [0, 0, 0, 0, 0, 0, 0, 0, 0, 0, 0, 0, 0, 0, 0, 0]]

/-- The active board three `step`s after the glider seed. -/
def glider_3 : Nat → Nat → Nat := of_rows [
  [0, 0, 0, 0, 0, 0, 0, 0, 0, 0, 0, 0, 0, 0, 0, 0],
  [0, 0, 0, 0, 0, 0, 0, 0, 0, 0, 0, 0, 0, 0, 0, 0],
  [0, 0, 0, 0, 1, 2, 0, 0, 0, 0, 0, 0, 0, 0, 0, 0],
  [0, 0, 0, 2, 0, 1, 1, 0, 0, 0, 0, 0, 0, 0, 0, 0],
  [0, 0, 0, 0, 1, 1, 0, 0, 0, 0, 0, 0, 0, 0, 0, 0],
  [0, 0, 0, 0, 0, 0, 0, 0, 0, 0, 0, 0, 0, 0, 0, 0]]

/-- The active board four `step`s after the glider seed. -/
def glider_4 : Nat → Nat → Nat := of_rows [
  [0, 0, 0, 0, 0, 0, 0, 0, 0, 0, 0, 0, 0, 0, 0, 0],
  [0, 0, 0, 0, 0, 0, 0, 0, 0, 0, 0, 0, 0, 0, 0, 0],
  [0, 0, 0, 0, 2, 1, 0, 0, 0, 0, 0, 0, 0, 0, 0, 0],
  [0, 0, 0, 0, 0, 2, 1, 0, 0, 0, 0, 0, 0, 0, 0, 0],
  [0, 0, 0, 0, 1, 1, 1, 0, 0, 0, 0, 0, 0, 0, 0, 0],
  [0, 0, 0, 0, 0, 0, 0, 0, 0, 0, 0, 0, 0, 0, 0, 0]]

/-- The pairs (i, j) in the order a row-by-row double loop visits them. -/
def cells : List Nat → List Nat → List (Nat × Nat)
  | [], _ => []
  | i :: rs, cs => cs.map (fun j => (i, j)) ++ cells rs cs

/-- A frame whose 96 pixels all hold `PIXEL_DYING`, with delay 200. -/
def dying_frame : frame_t := ⟨200, fun _ => PIXEL_DYING⟩

/-- A board pair both of whose boards hold the glider one `step` after its seed; the cell
(3, 3) is Dying and has the three Alive neighbours (2, 3), (3, 4) and (4, 4). -/
def glider_1_boards : boards_t := ⟨⟨glider_1⟩, ⟨glider_1⟩⟩

/-- The first part of the body of the loop of `animate`, up to the test of the budget:
`step`, `fill_frame`, and the extinction branch. -/
def animate_play (rand : Nat → Nat) (s : anim_t) : anim_t :=
  let st := step s.board s.active s.is_alive
  let s := { s with board := st.board, active := st.active, is_alive := st.is_alive }
  let fr := fill_frame s.frame (s.board.get s.active) rand s.calls
  let s := { s with frame := fr.1, calls := fr.2 }
  if s.is_alive = 0 then
    let s := write_frame s s.frame_between
    { s with board := load_config s.board CONFIG_ALTERNATE }
  else s

/-- The second part of the body of the loop of `animate`: the fade and the output of the
frame. -/
def animate_fade (timeout : Nat) (s : anim_t) : anim_t :=
  let s :=
    if total_time s > timeout ∧ s.fade ≥ 256 then
      { s with fade := 255, fade_dir := -s.fade_dir }
    else s
  let s :=
    if s.fade > 0 ∧ s.fade < 256 then
      { s with frame_out := fade_frame s.frame_out s.frame s.fade, fade := s.fade + s.fade_dir }
    else s
  write_frame s (if s.fade < 256 then s.frame_out else s.frame)

/-- The state of `animate` when it first reaches the loop condition, for a budget of one
second, draws that are all 0 and uninitialised pixels that are all black. -/
def first_state : anim_t :=
  loop_state (fun _ => 0) (fun _ => PIXEL_BLACK) (fun _ => PIXEL_BLACK) 1000 0

/-- The projection of a board to Conway's game: Alive is live, Dead and Dying are dead. -/
def proj (b : board_t) : Nat → Nat → Bool :=
  fun i j => decide (b.data i j = STATE_ALIVE)

/-- The number of live cells among the eight neighbours of (row, col) on the 16x6 torus. -/
def life_neighbours (g : Nat → Nat → Bool) (row col : Nat) : Nat :=
  offsets.countP (fun d => g (((row : Int) + d.1) % 6).toNat (((col : Int) + d.2) % 16).toNat)

/-- One generation of Conway's game (B3/S23): a cell is live in the next generation when it
has exactly 3 live neighbours, or is live and has exactly 2. -/
def life_generation (g : Nat → Nat → Bool) : Nat → Nat → Bool :=
  fun i j => decide (life_neighbours g i j = 3) || (g i j && decide (life_neighbours g i j = 2))

/-- The grid of Conway's game after `n` generations. -/
def life_iterate : Nat → (Nat → Nat → Bool) → Nat → Nat → Bool
  | 0, g => g
  | n + 1, g => life_iterate n (life_generation g)

/-! ## The run of the boards in `animate` -/

theorem mem_cells (rs cs : List Nat) (i j : Nat) :
    (i, j) ∈ cells rs cs ↔ i ∈ rs ∧ j ∈ cs := by
  induction rs with
  | nil => simp [cells]
  | cons r rs ih =>
    simp only [cells, List.mem_append, List.mem_map, Prod.mk.injEq, ih, List.mem_cons]
    constructor
    · rintro (⟨a, ha, rfl, rfl⟩ | ⟨h1, h2⟩)
      · exact ⟨Or.inl rfl, ha⟩
      · exact ⟨Or.inr h1, h2⟩
    · rintro ⟨rfl | h1, h2⟩
      · exact Or.inl ⟨j, h2, rfl, rfl⟩
      · exact Or.inr ⟨h1, h2⟩

theorem mem_cells_range (i j : Nat) :
    (i, j) ∈ cells (List.range HEIGHT) (List.range WIDTH) ↔ i < 6 ∧ j < 16 := by
  simp [mem_cells, HEIGHT, WIDTH]

/-- A double loop is a single loop over the visited pairs. -/
theorem foldl_cells {σ : Type} (f : σ → Nat → Nat → σ) (rs cs : List Nat) (s : σ) :
    rs.foldl (fun st i => cs.foldl (fun st j => f st i j) st) s
      = (cells rs cs).foldl (fun st p => f st p.1 p.2) s := by
  induction rs generalizing s with
  | nil => rfl
  | cons r rs ih =>
    simp only [List.foldl_cons, cells, List.foldl_append, List.foldl_map]
    exact ih _

/-- A counting loop adds the number of elements that pass the test. -/
theorem foldl_count {α : Type} (p : α → Prop) [DecidablePred p] (l : List α) (s : Nat) :
    l.foldl (fun acc a => if p a then acc + 1 else acc) s = s + l.countP (fun a => decide (p a)) := by
  induction l generalizing s with
  | nil => simp
  | cons a l ih =>
    simp only [List.foldl_cons, ih, List.countP_cons]
    by_cases h : p a
    · simp [h]; omega
    · simp [h]

/-! ## Neighbour count -/

/-- The C wrap of a row index is the non-negative modulo, from -6 upwards. -/
theorem wrap_row (i : Int) (h : -6 ≤ i) :
    (if i < 0 then i + (HEIGHT : Int) else Int.tmod i HEIGHT) = i % 6 := by
  simp only [HEIGHT, Nat.cast_ofNat]
  split
  · omega
  · rw [Int.tmod_eq_emod (by omega) (by omega)]

/-- The C wrap of a column index is the non-negative modulo, from -16 upwards. -/
theorem wrap_col (j : Int) (h : -16 ≤ j) :
    (if j < 0 then j + (WIDTH : Int) else Int.tmod j WIDTH) = j % 16 := by
  simp only [WIDTH, Nat.cast_ofNat]
  split
  · omega
  · rw [Int.tmod_eq_emod (by omega) (by omega)]

theorem neighbours_eq (b : board_t) (row col : Nat) (hr : row < 6) (hc : col < 16) :
    neighbours b row col = alive_around b row col := by
  have r1 := wrap_row ((row : Int) - 1) (by omega)
  have r2 := wrap_row (row : Int) (by omega)
  have r3 := wrap_row ((row : Int) + 1) (by omega)
  have c1 := wrap_col ((col : Int) - 1) (by omega)
  have c2 := wrap_col (col : Int) (by omega)
  have c3 := wrap_col ((col : Int) + 1) (by omega)
  unfold neighbours
  simp only [foldl_count]
  simp only [List.foldl_cons, List.foldl_nil, List.countP_cons, List.countP_nil, r1, r2, r3,
    c1, c2, c3, alive_around, offsets]
  have e1 : ¬ ((row : Int) - 1 = row) := by omega
  have e2 : ¬ ((row : Int) + 1 = row) := by omega
  have e3 : ¬ ((col : Int) - 1 = col) := by omega
  have e4 : ¬ ((col : Int) + 1 = col) := by omega
  simp only [e1, e2, e3, e4, false_and, and_false, not_false_eq_true, true_and, and_self,
    not_true_eq_false, decide_False, Bool.false_eq_true, if_false, Int.reduceNeg,
    Int.add_neg_one, add_zero, zero_add]
  omega

/-- A store to the centre cell does not change the count of its neighbours. -/
theorem alive_around_set (b : board_t) (row col v : Nat) :
    alive_around (b.set row col v) row col = alive_around b row col := by
  unfold alive_around
  apply List.countP_congr
  intro d hd
  have hne : ¬ ((((row : Int) + d.1) % 6).toNat = row ∧ (((col : Int) + d.2) % 16).toNat = col) := by
    simp only [offsets, List.mem_cons, List.mem_singleton, List.not_mem_nil, or_false] at hd
    rcases hd with rfl | rfl | rfl | rfl | rfl | rfl | rfl | rfl <;> simp only <;> omega
  simp only [board_t.set, hne, if_false]

/-- Dying cells do not contribute to the count. -/
theorem alive_around_undying (b : board_t) (row col : Nat) :
    alive_around (undying b) row col = alive_around b row col := by
  unfold alive_around
  apply List.countP_congr
  intro d _
  simp only [undying, STATE_DYING, STATE_DEAD, decide_eq_true_eq]
  split <;> omega

/-- On a board without Alive cells every count of neighbours is 0. -/
theorem neighbours_no_alive (b : board_t) (row col : Nat) (hr : row < 6) (hc : col < 16)
    (hb : ∀ i : Nat, i < 6 → ∀ j : Nat, j < 16 → b.data i j ≠ STATE_ALIVE) :
    neighbours b row col = 0 := by
  rw [neighbours_eq b row col hr hc, alive_around, List.countP_eq_zero]
  intro d _
  have h1 : (((row : Int) + d.1) % 6).toNat < 6 := by omega
  have h2 : (((col : Int) + d.2) % 16).toNat < 16 := by omega
  simpa [STATE_ALIVE] using hb _ h1 _ h2

/-! ## The board pair -/

theorem get_put_same (b : boards_t) (k : Nat) (v : board_t) : (b.put k v).get k = v := by
  unfold boards_t.put boards_t.get
  by_cases h : k = 0 <;> simp [h]

theorem get_put_lnot (b : boards_t) (a : Nat) (v : board_t) :
    (b.put (lnot a) v).get a = b.get a := by
  unfold boards_t.put boards_t.get lnot
  by_cases h : a = 0 <;> simp [h]

theorem lnot_le_one (a : Nat) : lnot a ≤ 1 := by
  unfold lnot
  split <;> omega

theorem lnot_lnot (a : Nat) (ha : a ≤ 1) : lnot (lnot a) = a := by
  unfold lnot
  by_cases h : a = 0
  · simp [h]
  · simp [h]; omega

/-! ## The loop of `step` -/

theorem step_cell_fst (a : Nat) (s : boards_t × Nat) (i j : Nat) :
    (step_cell a s i j).1
      = s.1.put (lnot a) ((s.1.get (lnot a)).set i j (next_cell (s.1.get a) i j)) := rfl

theorem step_cell_snd (a : Nat) (s : boards_t × Nat) (i j : Nat) :
    (step_cell a s i j).2 = if next_cell (s.1.get a) i j = 1 then 1 else s.2 := by
  simp [step_cell, get_put_same, board_t.set, next_cell, STATE_ALIVE]

/-- The state after the loop of `step` has visited the cells of `l`: the board read is
untouched, the visited cells of the other board hold their next state, and the flag
is 1 exactly when one of them is Alive (else it keeps its value). -/
theorem step_loop (a : Nat) (old : board_t) (l : List (Nat × Nat)) (s : boards_t × Nat)
    (hs : s.1.get a = old) :
    ((l.foldl (fun st p => step_cell a st p.1 p.2) s).1.get a = old) ∧
    (∀ i j, ((l.foldl (fun st p => step_cell a st p.1 p.2) s).1.get (lnot a)).data i j
        = if (i, j) ∈ l then next_cell old i j else (s.1.get (lnot a)).data i j) ∧
    ((l.foldl (fun st p => step_cell a st p.1 p.2) s).2
        = if ∃ p ∈ l, next_cell old p.1 p.2 = 1 then 1 else s.2) := by
  induction l generalizing s with
  | nil => simp [hs]
  | cons p l ih =>
    have h1 : (step_cell a s p.1 p.2).1.get a = old := by
      rw [step_cell_fst, get_put_lnot, hs]
    obtain ⟨k1, k2, k3⟩ := ih (step_cell a s p.1 p.2) h1
    simp only [List.foldl_cons]
    refine ⟨k1, ?_, ?_⟩
    · intro i j
      rw [k2, step_cell_fst, get_put_same, hs]
      by_cases hm : (i, j) ∈ l
      · simp [hm]
      · by_cases hp : (i, j) = p
        · subst hp
          simp [board_t.set]
        · have hp2 : ¬ (i = p.1 ∧ j = p.2) := fun h => hp (Prod.ext h.1 h.2)
          simp [hm, hp, board_t.set, hp2]
    · rw [k3, step_cell_snd, hs]
      by_cases hm : ∃ q ∈ l, next_cell old q.1 q.2 = 1
      · obtain ⟨q, hq, hq1⟩ := hm
        have : ∃ q ∈ p :: l, next_cell old q.1 q.2 = 1 := ⟨q, List.mem_cons_of_mem _ hq, hq1⟩
        rw [if_pos this, if_pos ⟨q, hq, hq1⟩]
      · rw [if_neg hm]
        by_cases hp : next_cell old p.1 p.2 = 1
        · have : ∃ q ∈ p :: l, next_cell old q.1 q.2 = 1 := ⟨p, List.mem_cons_self _ _, hp⟩
          rw [if_pos this, if_pos hp]
        · have : ¬ ∃ q ∈ p :: l, next_cell old q.1 q.2 = 1 := by
            rintro ⟨q, hq, hq1⟩
            rcases List.mem_cons.1 hq with rfl | hq
            · exact hp hq1
            · exact hm ⟨q, hq, hq1⟩
          rw [if_neg this, if_neg hp]

/-- The result of `step`, cell by cell. -/
theorem step_board (board : boards_t) (active is_alive : Nat) :
    ((step board active is_alive).board.get active = board.get active) ∧
    (∀ i j, i < 6 → j < 16 →
      ((step board active is_alive).board.get (lnot active)).data i j
        = next_cell (board.get active) i j) ∧
    ((step board active is_alive).is_alive
        = if ∃ i : Nat, i < 6 ∧ ∃ j : Nat, j < 16 ∧ next_cell (board.get active) i j = 1 then 1 else 0) ∧
    (step board active is_alive).active = lnot active := by
  obtain ⟨k1, k2, k3⟩ := step_loop active (board.get active)
    (cells (List.range HEIGHT) (List.range WIDTH)) (board, 0) rfl
  simp only [step, foldl_cells]
  refine ⟨k1, ?_, ?_, trivial⟩
  · intro i j hi hj
    rw [k2, if_pos ((mem_cells_range i j).2 ⟨hi, hj⟩)]
  · rw [k3]
    have e : (∃ p ∈ cells (List.range HEIGHT) (List.range WIDTH),
        next_cell (board.get active) p.1 p.2 = 1)
        ↔ ∃ i : Nat, i < 6 ∧ ∃ j : Nat, j < 16 ∧ next_cell (board.get active) i j = 1 := by
      constructor
      · rintro ⟨⟨i, j⟩, hp, h⟩
        exact ⟨i, ((mem_cells_range i j).1 hp).1, j, ((mem_cells_range i j).1 hp).2, h⟩
      · rintro ⟨i, hi, j, hj, h⟩
        exact ⟨(i, j), (mem_cells_range i j).2 ⟨hi, hj⟩, h⟩
    simp only [e]

theorem next_cell_step (board : boards_t) (active is_alive i j : Nat) (hi : i < 6) (hj : j < 16) :
    ((step board active is_alive).board.get (step board active is_alive).active).data i j
      = next_cell (board.get active) i j := by
  rw [(step_board board active is_alive).2.2.2]
  exact (step_board board active is_alive).2.1 i j hi hj

/-- The choice made by the code agrees with the rule of the specification on the three
states. -/
theorem state_next_rule (n previous : Nat) (hp : previous ≤ 2) :
    (n = 2 → (previous = STATE_DEAD ∨ previous = STATE_ALIVE) → state_next n previous = previous) ∧
    (n = 2 → previous = STATE_DYING → state_next n previous = STATE_DEAD) ∧
    ((n < 2 ∨ n > 3) → previous = STATE_ALIVE → state_next n previous = STATE_DYING) ∧
    ((n < 2 ∨ n > 3) → (previous = STATE_DEAD ∨ previous = STATE_DYING) →
      state_next n previous = STATE_DEAD) ∧
    state_next n previous = rule n previous := by
  simp only [state_next, rule, STATE_DEAD, STATE_DYING, STATE_ALIVE]
  refine ⟨?_, ?_, ?_, ?_, ?_⟩
  · intro h2 h
    simp only [h2, if_true]
    split <;> omega
  · intro h2 h
    simp [h2, h]
  · intro hn h
    have h2 : ¬ n = 2 := by omega
    have h3 : ¬ n = 3 := by omega
    simp [h2, h3, hn, h]
  · intro hn h
    have h2 : ¬ n = 2 := by omega
    have h3 : ¬ n = 3 := by omega
    have h1 : ¬ previous = 1 := by omega
    simp [h2, h3, hn, h1]
  · by_cases h2 : n = 2
    · subst h2
      interval_cases previous <;> simp
    · by_cases h3 : n = 3
      · simp [h3]
      · have hn : n < 2 ∨ n > 3 := by omega
        simp [h2, h3, hn]

/-- The flag left by `step` is 0 exactly when the new active board has no Alive cell. -/
theorem step_is_alive_flag (board : boards_t) (active is_alive : Nat) :
    (step board active is_alive).is_alive = 0 ↔
      ∀ i : Nat, i < 6 → ∀ j : Nat, j < 16 →
        ((step board active is_alive).board.get (step board active is_alive).active).data i j
          ≠ STATE_ALIVE := by
  obtain ⟨_, k2, k3, k4⟩ := step_board board active is_alive
  rw [k3, k4]
  constructor
  · intro h i hi j hj hc
    rw [k2 i j hi hj] at hc
    have : ∃ i : Nat, i < 6 ∧ ∃ j : Nat, j < 16 ∧ next_cell (board.get active) i j = 1 :=
      ⟨i, hi, j, hj, hc⟩
    rw [if_pos this] at h
    exact absurd h (by decide)
  · intro h
    have : ¬ ∃ i : Nat, i < 6 ∧ ∃ j : Nat, j < 16 ∧ next_cell (board.get active) i j = 1 := by
      rintro ⟨i, hi, j, hj, hc⟩
      exact h i hi j hj (by rw [k2 i j hi hj]; exact hc)
    rw [if_neg this]

/-! ## Filling a board -/

theorem fill_loop (config : Nat → Nat → Nat) (l : List (Nat × Nat)) (b : board_t) (i j : Nat) :
    (l.foldl (fun board p => board.set p.1 p.2 (config p.1 p.2)) b).data i j
      = if (i, j) ∈ l then config i j else b.data i j := by
  induction l generalizing b with
  | nil => simp
  | cons p l ih =>
    rw [List.foldl_cons, ih]
    by_cases hm : (i, j) ∈ l
    · simp [hm]
    · by_cases hp : (i, j) = p
      · subst hp
        simp [board_t.set]
      · have hp2 : ¬ (i = p.1 ∧ j = p.2) := fun h => hp (Prod.ext h.1 h.2)
        simp [hm, hp, board_t.set, hp2]

/-- The board after `fill_board` holds the configuration in every cell. -/
theorem fill_board_data (b : board_t) (config : Nat → Nat → Nat) (i j : Nat)
    (hi : i < 6) (hj : j < 16) : (fill_board b config).data i j = config i j := by
  have e : fill_board b config
      = (cells (List.range HEIGHT) (List.range WIDTH)).foldl
          (fun board p => board.set p.1 p.2 (config p.1 p.2)) b :=
    foldl_cells (fun (board : board_t) (i j : Nat) => board.set i j (config i j)) _ _ b
  rw [e, fill_loop, if_pos ((mem_cells_range i j).2 ⟨hi, hj⟩)]

theorem load_config_get (board : boards_t) (config : Nat → Nat → Nat) :
    (load_config board config).get 0 = fill_board (board.get 0) config ∧
    (load_config board config).get 1 = fill_board (board.get 1) config := by
  simp [load_config, boards_t.get, boards_t.put]

theorem load_config_data (board : boards_t) (config : Nat → Nat → Nat) (k i j : Nat)
    (hi : i < 6) (hj : j < 16) : ((load_config board config).get k).data i j = config i j := by
  by_cases hk : k = 0
  · subst hk
    rw [(load_config_get board config).1, fill_board_data _ _ i j hi hj]
  · have : (load_config board config).get k = (load_config board config).get 1 := by
      simp [boards_t.get, hk]
    rw [this, (load_config_get board config).2, fill_board_data _ _ i j hi hj]

/-! ## Frames -/

/-- A loop of pixel stores leaves the delay of the frame alone. -/
theorem foldl_set_delay {α : Type} (l : List α) (g : α → Nat) (c : α → pixel_t) (f : frame_t) :
    (l.foldl (fun frame a => frame.set (g a) (c a)) f).delay = f.delay := by
  induction l generalizing f with
  | nil => rfl
  | cons a l ih => rw [List.foldl_cons, ih]; rfl

/-- A double loop of pixel stores leaves the delay of the frame alone. -/
theorem foldl2_set_delay (rs cs : List Nat) (g : Nat → Nat → Nat) (c : Nat → Nat → pixel_t)
    (f : frame_t) :
    (rs.foldl (fun frame y => cs.foldl (fun frame x => frame.set (g y x) (c y x)) frame) f).delay
      = f.delay := by
  rw [foldl_cells (fun (frame : frame_t) (y x : Nat) => frame.set (g y x) (c y x))]
  exact foldl_set_delay _ (fun p : Nat × Nat => g p.1 p.2) (fun p : Nat × Nat => c p.1 p.2) f

theorem fill_frame_delay (frame : frame_t) (b : board_t) (rand : Nat → Nat) (k : Nat) :
    (fill_frame frame b rand k).1.delay = frame.delay :=
  foldl2_set_delay (List.range HEIGHT) (List.range WIDTH) (fun y x => x + (y * WIDTH))
    (fun y x => List.getD [(random_dead_color rand k).1,
      (random_color rand (random_dead_color rand k).2).1, PIXEL_DYING] (b.data y x) PIXEL_BLACK)
    frame

theorem fade_frame_delay (frame_out frame : frame_t) (fade : Int) :
    (fade_frame frame_out frame fade).delay = frame_out.delay :=
  foldl2_set_delay (List.range HEIGHT) (List.range WIDTH) (fun y x => x + (WIDTH * y))
    (fun y x => ⟨fade_scale (frame.pixel (x + (WIDTH * y))).r fade,
      fade_scale (frame.pixel (x + (WIDTH * y))).g fade,
      fade_scale (frame.pixel (x + (WIDTH * y))).b fade⟩) frame_out

/-- One row of stores of the colour `c`: the pixels of the row hold `c`, the others are kept. -/
theorem row_set (c : pixel_t) (y : Nat) (l : List Nat) (f : frame_t) :
    (∀ x ∈ l, (l.foldl (fun frame x => frame.set (x + (y * WIDTH)) c) f).pixel (x + y * WIDTH) = c) ∧
    (∀ idx : Nat, (∀ x ∈ l, idx ≠ x + y * WIDTH) →
      (l.foldl (fun frame x => frame.set (x + (y * WIDTH)) c) f).pixel idx = f.pixel idx) := by
  induction l generalizing f with
  | nil => simp
  | cons a l ih =>
    obtain ⟨i1, i2⟩ := ih (f.set (a + (y * WIDTH)) c)
    simp only [List.foldl_cons]
    constructor
    · intro x hx
      by_cases hl : x ∈ l
      · exact i1 x hl
      · by_cases hk : ∀ x' ∈ l, x + y * WIDTH ≠ x' + y * WIDTH
        · rw [i2 _ hk]
          rcases List.mem_cons.1 hx with rfl | h
          · simp [frame_t.set]
          · exact absurd h hl
        · push_neg at hk
          obtain ⟨x', hx', he⟩ := hk
          have : x = x' := by omega
          exact absurd (this ▸ hx') hl
    · intro idx hidx
      rw [i2 idx (fun x hx => hidx x (List.mem_cons_of_mem _ hx))]
      have : idx ≠ a + y * WIDTH := hidx a (List.mem_cons_self _ _)
      simp [frame_t.set, this]

/-- The frame after the first `n` rows of the loop that fills `frame_between`. -/
theorem fill_between_rows (rand : Nat → Nat) (fb : frame_t) (k n : Nat) :
    ((List.range n).foldl (fun (st : frame_t × Nat) y =>
        ((List.range WIDTH).foldl (fun frame x => frame.set (x + (y * WIDTH))
          (random_color rand st.2).1) st.1, (random_color rand st.2).2)) (fb, k)).2 = k + 3 * n ∧
    ((List.range n).foldl (fun (st : frame_t × Nat) y =>
        ((List.range WIDTH).foldl (fun frame x => frame.set (x + (y * WIDTH))
          (random_color rand st.2).1) st.1, (random_color rand st.2).2)) (fb, k)).1.delay
      = fb.delay ∧
    (∀ y : Nat, y < n → ∀ x : Nat, x < 16 →
      ((List.range n).foldl (fun (st : frame_t × Nat) y =>
        ((List.range WIDTH).foldl (fun frame x => frame.set (x + (y * WIDTH))
          (random_color rand st.2).1) st.1, (random_color rand st.2).2)) (fb, k)).1.pixel
            (x + y * 16) = (random_color rand (k + 3 * y)).1) := by
  induction n with
  | zero => simp
  | succ n ih =>
    obtain ⟨i1, i2, i3⟩ := ih
    rw [List.range_succ, List.foldl_append]
    simp only [List.foldl_cons, List.foldl_nil]
    refine ⟨?_, ?_, ?_⟩
    · rw [i1]; simp only [random_color]; omega
    · rw [foldl_set_delay _ (fun x => x + (n * WIDTH)) (fun _ => _), i2]
    · intro y hy x hx
      rw [i1]
      obtain ⟨r1, r2⟩ := row_set (random_color rand (k + 3 * n)).1 n (List.range WIDTH)
        ((List.range n).foldl (fun (st : frame_t × Nat) y =>
          ((List.range WIDTH).foldl (fun frame x => frame.set (x + (y * WIDTH))
            (random_color rand st.2).1) st.1, (random_color rand st.2).2)) (fb, k)).1
      by_cases hyn : y = n
      · subst hyn
        have := r1 x (by simp [WIDTH]; exact hx)
        simpa [WIDTH] using this
      · rw [r2 (x + y * 16)]
        · exact i3 y (by omega) x hx
        · intro x' hx'
          simp only [WIDTH, List.mem_range] at hx' ⊢
          omega

/-- The transition frame built by `animate`: delay 400 and one colour per row. -/
theorem init_between (rand : Nat → Nat) (junk junk_between : Nat → pixel_t) :
    (animate_init rand junk junk_between).frame_between.delay = 400 ∧
    (∀ y : Nat, y < 6 → ∀ x : Nat, x < 16 →
      (animate_init rand junk junk_between).frame_between.pixel (x + y * 16)
        = (random_color rand (3 * y)).1) := by
  obtain ⟨_, i2, i3⟩ := fill_between_rows rand ⟨400, junk_between⟩ 0 6
  refine ⟨i2, ?_⟩
  intro y hy x hx
  have := i3 y hy x hx
  simpa using this

/-! ## The body of the loop of `animate` -/

theorem body_frame_between (rand : Nat → Nat) (timeout : Nat) (s : anim_t) :
    (animate_body rand timeout s).frame_between = s.frame_between := by
  simp only [animate_body, write_frame, total_time]
  split_ifs <;> rfl

theorem body_active (rand : Nat → Nat) (timeout : Nat) (s : anim_t) :
    (animate_body rand timeout s).active = lnot s.active := by
  simp only [animate_body, write_frame, total_time]
  split_ifs <;> rfl

theorem body_board (rand : Nat → Nat) (timeout : Nat) (s : anim_t) :
    (animate_body rand timeout s).board
      = if (step s.board s.active s.is_alive).is_alive = 0 then
          load_config (step s.board s.active s.is_alive).board CONFIG_ALTERNATE
        else (step s.board s.active s.is_alive).board := by
  simp only [animate_body, write_frame, total_time]
  split_ifs <;> rfl

theorem body_frame_delay (rand : Nat → Nat) (timeout : Nat) (s : anim_t) :
    (animate_body rand timeout s).frame.delay = s.frame.delay := by
  simp only [animate_body, write_frame, total_time]
  split_ifs <;> exact fill_frame_delay _ _ _ _

theorem body_frame_out_delay (rand : Nat → Nat) (timeout : Nat) (s : anim_t) :
    (animate_body rand timeout s).frame_out.delay = s.frame_out.delay := by
  simp only [animate_body, write_frame, total_time]
  split_ifs <;> first | rw [fade_frame_delay] | rfl

/-- The frames written by one pass: the transition frame when `step` found no Alive cell,
then one frame that is `frame` or `frame_out`. -/
theorem body_out (rand : Nat → Nat) (timeout : Nat) (s : anim_t) :
    ∃ f : frame_t, (f.delay = s.frame.delay ∨ f.delay = s.frame_out.delay) ∧
      (animate_body rand timeout s).out
        = s.out ++ (if (step s.board s.active s.is_alive).is_alive = 0 then [s.frame_between]
            else []) ++ [f] := by
  have h1 := body_frame_delay rand timeout s
  have h2 := body_frame_out_delay rand timeout s
  refine ⟨if (animate_body rand timeout s).fade < 256 then (animate_body rand timeout s).frame_out
    else (animate_body rand timeout s).frame, ?_, ?_⟩
  · split
    · exact Or.inr h2
    · exact Or.inl h1
  · simp only [animate_body, write_frame, total_time]
    split_ifs <;> simp

/-! ## Invariants of the loop of `animate` -/

/-- A property kept by every pass holds at the loop condition after any number of passes. -/
theorem after_inv (rand : Nat → Nat) (timeout : Nat) (P : anim_t → Prop)
    (hP : ∀ s, P s → P (animate_body rand timeout s)) (n : Nat) (s : anim_t) (h : P s) :
    P (animate_after rand timeout n s) := by
  induction n generalizing s with
  | zero => exact h
  | succ n ih =>
    simp only [animate_after]
    split
    · exact ih _ (hP s h)
    · exact h

/-- The transition frame and the delays of the two other frames never change. -/
theorem loop_state_inv (rand : Nat → Nat) (junk junk_between : Nat → pixel_t)
    (timeout n : Nat) :
    (loop_state rand junk junk_between timeout n).frame_between
      = (animate_init rand junk junk_between).frame_between ∧
    (loop_state rand junk junk_between timeout n).frame.delay = 200 ∧
    (loop_state rand junk junk_between timeout n).frame_out.delay = 50 := by
  refine after_inv rand timeout
    (fun s => s.frame_between = (animate_init rand junk junk_between).frame_between ∧
      s.frame.delay = 200 ∧ s.frame_out.delay = 50) ?_ n _ ⟨rfl, rfl, rfl⟩
  rintro s ⟨h1, h2, h3⟩
  exact ⟨by rw [body_frame_between, h1], by rw [body_frame_delay, h2],
    by rw [body_frame_out_delay, h3]⟩

/-! ## Claims about `neighbours` and `step` -/

/-- C1: for every board and every cell (row in 0..5, col in 0..15), `neighbours` equals the
number of Alive cells among the eight positions ((row+dr) mod 6, (col+dc) mod 16) with the
non-negative modulo; the result is at most 8; the centre cell is not counted (storing any
value in it leaves the count unchanged) and Dying cells are not counted (replacing them by
Dead cells leaves the count unchanged). -/
theorem neighbours_counts_alive_on_torus (b : board_t) (row col : Nat)
    (hr : row < 6) (hc : col < 16) :
    neighbours b row col = alive_around b row col ∧
    neighbours b row col ≤ 8 ∧
    (∀ v, neighbours (b.set row col v) row col = neighbours b row col) ∧
    neighbours (undying b) row col = neighbours b row col := by
  refine ⟨neighbours_eq b row col hr hc, ?_, ?_, ?_⟩
  · rw [neighbours_eq b row col hr hc]
    exact List.countP_le_length _
  · intro v
    rw [neighbours_eq _ row col hr hc, neighbours_eq _ row col hr hc, alive_around_set]
  · rw [neighbours_eq _ row col hr hc, neighbours_eq _ row col hr hc, alive_around_undying]

/-- Witness for C1 at the corner cell (0, 15): of its neighbours only (5, 0), reached by
wrapping both the row and the column, is Alive, and the count is 1. -/
theorem neighbours_counts_alive_on_torus_witness :
    neighbours corner_board 0 15 = 1 ∧
    (neighbours corner_board (0 : Nat) (15 : Nat) = alive_around corner_board 0 15 ∧
      neighbours corner_board (0 : Nat) (15 : Nat) ≤ 8 ∧
      (∀ v, neighbours (corner_board.set 0 15 v) (0 : Nat) (15 : Nat)
        = neighbours corner_board (0 : Nat) (15 : Nat)) ∧
      neighbours (undying corner_board) (0 : Nat) (15 : Nat)
        = neighbours corner_board (0 : Nat) (15 : Nat)) :=
  ⟨by decide, neighbours_counts_alive_on_torus corner_board 0 15 (by decide) (by decide)⟩

/-- C2: for every board pair, every active flag in {0,1} and every cell, if the cell has
exactly 3 Alive neighbours in the active board then after `step` the cell is Alive in the new
active board, whatever its previous state. -/
theorem step_three_neighbours_alive (board : boards_t) (active is_alive i j : Nat)
    (_ha : active ≤ 1) (hi : i < 6) (hj : j < 16)
    (h3 : neighbours (board.get active) i j = 3) :
    ((step board active is_alive).board.get (step board active is_alive).active).data i j
      = STATE_ALIVE := by
  rw [next_cell_step board active is_alive i j hi hj]
  simp [next_cell, state_next, h3]

/-- Witness for C2: the Dead cell (2, 3) of the glider has 3 Alive neighbours. -/
theorem step_three_neighbours_alive_witness :
    (sample_boards.get 1).data 2 3 = STATE_DEAD ∧
    ((step sample_boards 1 0).board.get (step sample_boards 1 0).active).data 2 3
      = STATE_ALIVE :=
  ⟨by decide,
   step_three_neighbours_alive sample_boards 1 0 2 3 (by decide) (by decide) (by decide)
     (by decide)⟩

/-- C3: for every board pair and every cell that is Dying and has exactly 2 Alive
neighbours, the cell's state after `step` is Dead; it is neither Dying nor Alive. -/
theorem step_dying_two_neighbours_dead (board : boards_t) (active is_alive i j : Nat)
    (_ha : active ≤ 1) (hi : i < 6) (hj : j < 16)
    (hd : (board.get active).data i j = STATE_DYING)
    (h2 : neighbours (board.get active) i j = 2) :
    ((step board active is_alive).board.get (step board active is_alive).active).data i j
      = STATE_DEAD ∧
    ((step board active is_alive).board.get (step board active is_alive).active).data i j
      ≠ STATE_DYING ∧
    ((step board active is_alive).board.get (step board active is_alive).active).data i j
      ≠ STATE_ALIVE := by
  rw [next_cell_step board active is_alive i j hi hj]
  simp [next_cell, state_next, h2, hd, STATE_DEAD, STATE_DYING, STATE_ALIVE]

/-- Witness for C3: the Dying cell (2, 2) of `board[0]` of the sample pair has the two
Alive neighbours (1, 1) and (3, 3). -/
theorem step_dying_two_neighbours_dead_witness :
    ((step sample_boards 0 1).board.get (step sample_boards 0 1).active).data 2 2
      = STATE_DEAD ∧
    ((step sample_boards 0 1).board.get (step sample_boards 0 1).active).data 2 2
      ≠ STATE_DYING ∧
    ((step sample_boards 0 1).board.get (step sample_boards 0 1).active).data 2 2
      ≠ STATE_ALIVE :=
  step_dying_two_neighbours_dead sample_boards 0 1 2 2 (by decide) (by decide) (by decide)
    (by decide) (by decide)

/-- C4: for every board whose cells are all Dead, Alive or Dying, and every cell with
neighbour count n: with n = 2 a Dead or Alive cell keeps its state and a Dying cell becomes
Dead; with n < 2 or n > 3 an Alive cell becomes Dying and a Dead or Dying cell becomes Dead;
and in every case (n = 3 included) the state written by `step` is `rule n previous`, a
function of the count and the previous state alone. -/
theorem step_cell_rule (board : boards_t) (active is_alive i j : Nat)
    (_ha : active ≤ 1) (hi : i < 6) (hj : j < 16)
    (hb : ∀ r : Nat, r < 6 → ∀ c : Nat, c < 16 → (board.get active).data r c ≤ 2) :
    (neighbours (board.get active) i j = 2 →
      ((board.get active).data i j = STATE_DEAD ∨ (board.get active).data i j = STATE_ALIVE) →
      ((step board active is_alive).board.get (step board active is_alive).active).data i j
        = (board.get active).data i j) ∧
    (neighbours (board.get active) i j = 2 → (board.get active).data i j = STATE_DYING →
      ((step board active is_alive).board.get (step board active is_alive).active).data i j
        = STATE_DEAD) ∧
    ((neighbours (board.get active) i j < 2 ∨ neighbours (board.get active) i j > 3) →
      (board.get active).data i j = STATE_ALIVE →
      ((step board active is_alive).board.get (step board active is_alive).active).data i j
        = STATE_DYING) ∧
    ((neighbours (board.get active) i j < 2 ∨ neighbours (board.get active) i j > 3) →
      ((board.get active).data i j = STATE_DEAD ∨ (board.get active).data i j = STATE_DYING) →
      ((step board active is_alive).board.get (step board active is_alive).active).data i j
        = STATE_DEAD) ∧
    ((step board active is_alive).board.get (step board active is_alive).active).data i j
      = rule (neighbours (board.get active) i j) ((board.get active).data i j) := by
  rw [next_cell_step board active is_alive i j hi hj]
  exact state_next_rule _ _ (hb i hi j hj)

/-- Witness for C4 on the glider board, at the Alive cell (1, 4) with one neighbour. -/
theorem step_cell_rule_witness :
    neighbours (sample_boards.get 1) (1 : Nat) (4 : Nat) = 1 ∧
    ((step sample_boards 1 0).board.get (step sample_boards 1 0).active).data 1 4
      = rule (neighbours (sample_boards.get 1) (1 : Nat) (4 : Nat))
          ((sample_boards.get 1).data 1 4) :=
  ⟨by decide,
   (step_cell_rule sample_boards 1 0 1 4 (by decide) (by decide) (by decide)
     (by decide)).2.2.2.2⟩

/-- C5: for every board pair and active flag in {0,1}, the flag `is_alive` returned by
`step` is 0 if and only if the new active board contains no Alive cell (Dying cells do not
count); the flag is 0 or 1, and its value on entry has no influence on the result. -/
theorem step_is_alive_iff (board : boards_t) (active is_alive : Nat) (_ha : active ≤ 1) :
    ((step board active is_alive).is_alive = 0 ↔
      ∀ i : Nat, i < 6 → ∀ j : Nat, j < 16 →
        ((step board active is_alive).board.get (step board active is_alive).active).data i j
          ≠ STATE_ALIVE) ∧
    ((step board active is_alive).is_alive = 0 ∨ (step board active is_alive).is_alive = 1) ∧
    (∀ entry : Nat, step board active entry = step board active is_alive) := by
  obtain ⟨_, _, k3, _⟩ := step_board board active is_alive
  refine ⟨step_is_alive_flag board active is_alive, ?_, fun _ => rfl⟩
  rw [k3]
  split
  · exact Or.inr rfl
  · exact Or.inl rfl

/-- Witness for C5: a lone Alive cell becomes Dying, the new board has a Dying cell and no
Alive one, and the flag is 0 although it was 1 on entry. -/
theorem step_is_alive_iff_witness :
    ((step lonely_boards 1 1).board.get (step lonely_boards 1 1).active).data 2 2
      = STATE_DYING ∧
    (step lonely_boards 1 1).is_alive = 0 ∧
    (((step lonely_boards 1 1).is_alive = 0 ↔
      ∀ i : Nat, i < 6 → ∀ j : Nat, j < 16 →
        ((step lonely_boards 1 1).board.get (step lonely_boards 1 1).active).data i j
          ≠ STATE_ALIVE) ∧
    ((step lonely_boards 1 1).is_alive = 0 ∨ (step lonely_boards 1 1).is_alive = 1) ∧
    (∀ entry : Nat, step lonely_boards 1 entry = step lonely_boards 1 1)) :=
  ⟨by decide, by decide, step_is_alive_iff lonely_boards 1 1 (by decide)⟩

/-! ## Claims about `load_config` -/

/-- C7: for every 6x16 seed configuration with entries in {0,1} and every prior content of
the board pair, after `load_config` both `board[0]` and `board[1]` hold, at every (row, col),
Alive where the seed is 1 and Dead where the seed is 0; the two boards agree, and the result
is the same for every other prior content (no cell keeps its old value). -/
theorem load_config_seed (config : Nat → Nat → Nat) (board : boards_t) (row col : Nat)
    (hseed : ∀ i : Nat, i < 6 → ∀ j : Nat, j < 16 → config i j = 0 ∨ config i j = 1)
    (hr : row < 6) (hc : col < 16) :
    ((load_config board config).get 0).data row col
      = (if config row col = 1 then STATE_ALIVE else STATE_DEAD) ∧
    ((load_config board config).get 1).data row col
      = (if config row col = 1 then STATE_ALIVE else STATE_DEAD) ∧
    ((load_config board config).get 0).data row col
      = ((load_config board config).get 1).data row col ∧
    (∀ prior : boards_t,
      ((load_config prior config).get 0).data row col
        = ((load_config board config).get 0).data row col ∧
      ((load_config prior config).get 1).data row col
        = ((load_config board config).get 1).data row col) := by
  have e : ∀ (b : boards_t) (k : Nat), ((load_config b config).get k).data row col
      = config row col := fun b k => load_config_data b config k row col hr hc
  have hv : config row col = (if config row col = 1 then STATE_ALIVE else STATE_DEAD) := by
    rcases hseed row hr col hc with h | h <;> simp [h, STATE_ALIVE, STATE_DEAD]
  refine ⟨?_, ?_, ?_, fun prior => ⟨?_, ?_⟩⟩
  · rw [e]; exact hv
  · rw [e]; exact hv
  · rw [e, e]
  · rw [e, e]
  · rw [e, e]

/-- Witness for C7: loading the glider seed over the sample pair, whose `board[0]` holds a
stale 7 at (5, 3) and an Alive cell at (1, 1). -/
theorem load_config_seed_witness :
    (sample_boards.get 0).data 5 3 = 7 ∧
    ((load_config sample_boards CONFIG_GLIDER).get 0).data 5 3
      = (if CONFIG_GLIDER 5 3 = 1 then STATE_ALIVE else STATE_DEAD) ∧
    ((load_config sample_boards CONFIG_GLIDER).get 1).data 5 3
      = (if CONFIG_GLIDER 5 3 = 1 then STATE_ALIVE else STATE_DEAD) ∧
    ((load_config sample_boards CONFIG_GLIDER).get 0).data 5 3
      = ((load_config sample_boards CONFIG_GLIDER).get 1).data 5 3 ∧
    (∀ prior : boards_t,
      ((load_config prior CONFIG_GLIDER).get 0).data 5 3
        = ((load_config sample_boards CONFIG_GLIDER).get 0).data 5 3 ∧
      ((load_config prior CONFIG_GLIDER).get 1).data 5 3
        = ((load_config sample_boards CONFIG_GLIDER).get 1).data 5 3) :=
  ⟨by decide, load_config_seed CONFIG_GLIDER sample_boards 5 3 (by decide) (by decide) (by decide)⟩

/-! ## The glider -/

/-- The next state of a cell depends on the 6x16 cells of the board only. -/
theorem next_cell_congr (b c : board_t) (row col : Nat) (hr : row < 6) (hc : col < 16)
    (h : ∀ i : Nat, i < 6 → ∀ j : Nat, j < 16 → b.data i j = c.data i j) :
    next_cell b row col = next_cell c row col := by
  have hn : neighbours b row col = neighbours c row col := by
    rw [neighbours_eq b row col hr hc, neighbours_eq c row col hr hc, alive_around, alive_around]
    apply List.countP_congr
    intro d _
    have h1 : (((row : Int) + d.1) % 6).toNat < 6 := by omega
    have h2 : (((col : Int) + d.2) % 16).toNat < 16 := by omega
    rw [h _ h1 _ h2]
  rw [next_cell, next_cell, hn, h row hr col hc]

/-- One `step` from a pair whose active board holds the table `g` leaves the table `g2` in
the new active board, when `g2` is the next state of every cell of `g`. -/
theorem step_table (g g2 : Nat → Nat → Nat) (s : step_t)
    (hs : ∀ i : Nat, i < 6 → ∀ j : Nat, j < 16 → (s.board.get s.active).data i j = g i j)
    (hg : ∀ i : Nat, i < 6 → ∀ j : Nat, j < 16 → next_cell ⟨g⟩ i j = g2 i j) :
    ∀ i : Nat, i < 6 → ∀ j : Nat, j < 16 →
      ((step s.board s.active s.is_alive).board.get
        (step s.board s.active s.is_alive).active).data i j = g2 i j := by
  intro i hi j hj
  rw [next_cell_step _ _ _ i j hi hj, next_cell_congr _ ⟨g⟩ i j hi hj hs]
  exact hg i hi j hj

theorem glider_table_1 :
    ∀ i : Nat, i < 6 → ∀ j : Nat, j < 16 → next_cell ⟨CONFIG_GLIDER⟩ i j = glider_1 i j := by
  decide

theorem glider_table_2 :
    ∀ i : Nat, i < 6 → ∀ j : Nat, j < 16 → next_cell ⟨glider_1⟩ i j = glider_2 i j := by
  decide

theorem glider_table_3 :
    ∀ i : Nat, i < 6 → ∀ j : Nat, j < 16 → next_cell ⟨glider_2⟩ i j = glider_3 i j := by
  decide

theorem glider_table_4 :
    ∀ i : Nat, i < 6 → ∀ j : Nat, j < 16 → next_cell ⟨glider_3⟩ i j = glider_4 i j := by
  decide

/-- Four calls of `step` after loading the glider seed leave the table `glider_4` in the
active board, whatever the boards held before and whichever board is active. -/
theorem glider_four (prior : boards_t) (active is_alive : Nat) :
    ∀ i : Nat, i < 6 → ∀ j : Nat, j < 16 →
      ((step_times 4 ⟨load_config prior CONFIG_GLIDER, active, is_alive⟩).board.get
        (step_times 4 ⟨load_config prior CONFIG_GLIDER, active, is_alive⟩).active).data i j
          = glider_4 i j := by
  have h0 : ∀ i : Nat, i < 6 → ∀ j : Nat, j < 16 →
      ((load_config prior CONFIG_GLIDER).get active).data i j = CONFIG_GLIDER i j :=
    fun i hi j hj => load_config_data prior CONFIG_GLIDER active i j hi hj
  have h1 := step_table CONFIG_GLIDER glider_1
    ⟨load_config prior CONFIG_GLIDER, active, is_alive⟩ h0 glider_table_1
  have h2 := step_table glider_1 glider_2 _ h1 glider_table_2
  have h3 := step_table glider_2 glider_3 _ h2 glider_table_3
  exact step_table glider_3 glider_4 _ h3 glider_table_4

theorem glider_4_cells :
    ∀ i : Nat, i < 6 → ∀ j : Nat, j < 16 →
      glider_4 i j = (if (i, j) ∈ [(2, 5), (3, 6), (4, 4), (4, 5), (4, 6)] then STATE_ALIVE
        else if (i, j) ∈ [(2, 4), (3, 5)] then STATE_DYING else STATE_DEAD) ∧
      (glider_4 i j = STATE_ALIVE ↔ glider_shifted i j = 1) := by
  decide

/-! ## Termination of the loop of `animate` -/

/-- A pass that starts at full brightness: with `A` the accumulator at the test of the
budget, the fade starts when `A > timeout`, and nothing changes otherwise. -/
theorem body_running (rand : Nat → Nat) (timeout : Nat) (s : anim_t)
    (hf : s.fade = 256) (hd : s.fade_dir = 8) :
    ((if (step s.board s.active s.is_alive).is_alive = 0 then
        (s.time_acc + s.frame_between.delay) % 4294967296 else s.time_acc) > timeout →
      (animate_body rand timeout s).fade = 247 ∧ (animate_body rand timeout s).fade_dir = -8) ∧
    (¬ (if (step s.board s.active s.is_alive).is_alive = 0 then
        (s.time_acc + s.frame_between.delay) % 4294967296 else s.time_acc) > timeout →
      (animate_body rand timeout s).fade = 256 ∧ (animate_body rand timeout s).fade_dir = 8 ∧
      (animate_body rand timeout s).time_acc
        = ((if (step s.board s.active s.is_alive).is_alive = 0 then
            (s.time_acc + s.frame_between.delay) % 4294967296 else s.time_acc)
            + s.frame.delay) % 4294967296) := by
  have hfd := fill_frame_delay s.frame
    ((step s.board s.active s.is_alive).board.get (step s.board s.active s.is_alive).active)
    rand s.calls
  simp only [animate_body, write_frame, total_time, hf, hd]
  split_ifs <;> simp_all

/-- A pass that starts while the fade is under way moves the magnitude by the direction. -/
theorem body_fading (rand : Nat → Nat) (timeout : Nat) (s : anim_t)
    (h0 : 0 < s.fade) (h1 : s.fade < 256) :
    (animate_body rand timeout s).fade = s.fade + s.fade_dir ∧
    (animate_body rand timeout s).fade_dir = s.fade_dir := by
  simp only [animate_body, write_frame, total_time]
  split_ifs <;> simp_all <;> omega

theorem after_done (rand : Nat → Nat) (timeout n : Nat) (s : anim_t) (h : ¬ s.fade > 0) :
    animate_after rand timeout n s = s := by
  cases n with
  | zero => rfl
  | succ n => simp only [animate_after, if_neg h]

theorem after_step (rand : Nat → Nat) (timeout n : Nat) (s : anim_t) (h : s.fade > 0) :
    animate_after rand timeout (n + 1) s
      = animate_after rand timeout n (animate_body rand timeout s) := by
  simp only [animate_after, if_pos h]

/-- When the state after `fuel` passes fails the loop condition, the loop ends within
`fuel` passes in that state. -/
theorem loop_eq_after (rand : Nat → Nat) (timeout fuel : Nat) (s : anim_t)
    (h : ¬ (animate_after rand timeout fuel s).fade > 0) :
    animate_loop rand timeout fuel s = some (animate_after rand timeout fuel s) := by
  induction fuel generalizing s with
  | zero =>
    simp only [animate_after] at h
    simp only [animate_loop, animate_after, if_neg h]
  | succ n ih =>
    by_cases hs : s.fade > 0
    · rw [after_step _ _ _ _ hs] at h ⊢
      simp only [animate_loop, if_pos hs]
      exact ih _ h
    · rw [after_done _ _ _ _ hs]
      simp only [animate_loop, if_neg hs]

/-- Once the fade is under way at magnitude 8 j + 7, the loop condition fails after j + 1
more passes, with magnitude -1. -/
theorem fading_ends (rand : Nat → Nat) (timeout : Nat) (j : Nat) (s : anim_t)
    (hf : s.fade = 8 * (j : Int) + 7) (hj : j ≤ 31) (hd : s.fade_dir = -8) :
    (animate_after rand timeout (j + 1) s).fade = -1 := by
  induction j generalizing s with
  | zero =>
    obtain ⟨b1, _⟩ := body_fading rand timeout s (by omega) (by omega)
    rw [after_step _ _ _ _ (by omega)]
    simp only [animate_after]
    rw [b1, hf, hd]
    norm_num
  | succ j ih =>
    obtain ⟨b1, b2⟩ := body_fading rand timeout s (by omega) (by omega)
    rw [after_step _ _ _ _ (by omega)]
    apply ih
    · rw [b1, hf, hd]; push_cast; ring
    · omega
    · rw [b2, hd]

/-- From full brightness, with the accumulator at most 200 above a budget that leaves room
for 600 more, some pass finds the budget exceeded and starts the fade. -/
theorem running_ends (rand : Nat → Nat) (timeout : Nat) (ht : timeout + 600 < 4294967296)
    (m : Nat) (s : anim_t) (hm : timeout + 200 - s.time_acc ≤ m)
    (hf : s.fade = 256) (hd : s.fade_dir = 8) (h200 : s.frame.delay = 200)
    (h400 : s.frame_between.delay = 400) (hacc : s.time_acc ≤ timeout + 200) :
    ∃ k : Nat, (animate_after rand timeout k s).fade = 256 ∧
      (animate_after rand timeout (k + 1) s).fade = 247 ∧
      (animate_after rand timeout (k + 1) s).fade_dir = -8 := by
  induction m generalizing s with
  | zero =>
    obtain ⟨b1, _⟩ := body_running rand timeout s hf hd
    have hA : (if (step s.board s.active s.is_alive).is_alive = 0 then
        (s.time_acc + s.frame_between.delay) % 4294967296 else s.time_acc) > timeout := by
      split
      · rw [h400, Nat.mod_eq_of_lt (by omega)]; omega
      · omega
    refine ⟨0, hf, ?_⟩
    rw [after_step _ _ _ _ (by omega)]
    exact b1 hA
  | succ m ih =>
    obtain ⟨b1, b2⟩ := body_running rand timeout s hf hd
    by_cases hA : (if (step s.board s.active s.is_alive).is_alive = 0 then
        (s.time_acc + s.frame_between.delay) % 4294967296 else s.time_acc) > timeout
    · refine ⟨0, hf, ?_⟩
      rw [after_step _ _ _ _ (by omega)]
      exact b1 hA
    · obtain ⟨c1, c2, c3⟩ := b2 hA
      have hge : s.time_acc ≤ (if (step s.board s.active s.is_alive).is_alive = 0 then
          (s.time_acc + s.frame_between.delay) % 4294967296 else s.time_acc) := by
        split
        · rw [h400, Nat.mod_eq_of_lt (by omega)]; omega
        · omega
      rw [h200, Nat.mod_eq_of_lt (by omega)] at c3
      obtain ⟨k, k1, k2, k3⟩ := ih (animate_body rand timeout s) (by omega) c1 c2
        (by rw [body_frame_delay, h200]) (by rw [body_frame_between, h400]) (by omega)
      refine ⟨k + 1, ?_, ?_, ?_⟩
      · rw [after_step _ _ _ _ (by omega)]; exact k1
      · rw [after_step _ _ _ _ (by omega)]; exact k2
      · rw [after_step _ _ _ _ (by omega)]; exact k3

theorem after_add (rand : Nat → Nat) (timeout a b : Nat) (s : anim_t) :
    animate_after rand timeout (a + b) s
      = animate_after rand timeout b (animate_after rand timeout a s) := by
  induction a generalizing s with
  | zero => simp [animate_after]
  | succ a ih =>
    by_cases hs : s.fade > 0
    · rw [show a + 1 + b = (a + b) + 1 by omega, after_step _ _ _ _ hs, after_step _ _ _ _ hs, ih]
    · rw [after_done _ _ _ _ hs, after_done _ _ _ _ hs, after_done _ _ _ _ hs]

/-- C6: if every cell of the active board is Dead, then after one `step` every cell of the
new active board is Dead and `step` reports `is_alive == 0`; a pass of the loop of `animate`
that starts from such a board therefore takes the restart branch: it writes the transition
frame before its regular frame and reloads both boards from `CONFIG_ALTERNATE`. -/
theorem step_all_dead (rand : Nat → Nat) (timeout : Nat) (s : anim_t) (_ha : s.active ≤ 1)
    (hd : ∀ i : Nat, i < 6 → ∀ j : Nat, j < 16 → (s.board.get s.active).data i j = STATE_DEAD) :
    (∀ i : Nat, i < 6 → ∀ j : Nat, j < 16 →
      ((step s.board s.active s.is_alive).board.get
        (step s.board s.active s.is_alive).active).data i j = STATE_DEAD) ∧
    (step s.board s.active s.is_alive).is_alive = 0 ∧
    (∃ f : frame_t, (animate_body rand timeout s).out = s.out ++ [s.frame_between, f]) ∧
    (animate_body rand timeout s).board
      = load_config (step s.board s.active s.is_alive).board CONFIG_ALTERNATE := by
  have hn : ∀ i : Nat, i < 6 → ∀ j : Nat, j < 16 → next_cell (s.board.get s.active) i j = 0 := by
    intro i hi j hj
    have h0 : neighbours (s.board.get s.active) i j = 0 :=
      neighbours_no_alive _ i j hi hj (fun r hr c hc => by rw [hd r hr c hc]; decide)
    simp [next_cell, state_next, h0, hd i hi j hj, STATE_DEAD, STATE_ALIVE]
  have hcells : ∀ i : Nat, i < 6 → ∀ j : Nat, j < 16 →
      ((step s.board s.active s.is_alive).board.get
        (step s.board s.active s.is_alive).active).data i j = STATE_DEAD := by
    intro i hi j hj
    rw [next_cell_step _ _ _ i j hi hj]
    exact hn i hi j hj
  have hflag : (step s.board s.active s.is_alive).is_alive = 0 :=
    (step_is_alive_flag s.board s.active s.is_alive).2 (fun i hi j hj => by
      rw [hcells i hi j hj]; decide)
  refine ⟨hcells, hflag, ?_, ?_⟩
  · obtain ⟨f, _, hf⟩ := body_out rand timeout s
    refine ⟨f, ?_⟩
    rw [hf, if_pos hflag]
    simp
  · rw [body_board, if_pos hflag]

/-- Witness for C6: the all-Dead `board[0]` of `dead_anim`. -/
theorem step_all_dead_witness :
    (∀ i : Nat, i < 6 → ∀ j : Nat, j < 16 →
      ((step dead_anim.board dead_anim.active dead_anim.is_alive).board.get
        (step dead_anim.board dead_anim.active dead_anim.is_alive).active).data i j
          = STATE_DEAD) ∧
    (step dead_anim.board dead_anim.active dead_anim.is_alive).is_alive = 0 ∧
    (∃ f : frame_t, (animate_body (fun _ => 0) 1000 dead_anim).out
      = dead_anim.out ++ [dead_anim.frame_between, f]) ∧
    (animate_body (fun _ => 0) 1000 dead_anim).board
      = load_config (step dead_anim.board dead_anim.active dead_anim.is_alive).board
          CONFIG_ALTERNATE :=
  step_all_dead (fun _ => 0) 1000 dead_anim (by decide) (by decide)

/-- C9: in every pass of the loop of `animate` (the pass that starts after `n` earlier
ones, for every `n`): the transition frame is the one built before the loop, with delay 400
and one colour per row; if `step` reported `is_alive == 0`, the pass writes exactly that
frame followed by its regular frame (whose delay is not 400), and afterwards both boards
hold `CONFIG_ALTERNATE`; if `step` reported `is_alive != 0`, the pass writes its regular
frame only and the boards are the ones `step` left. -/
theorem animate_restart_policy (rand : Nat → Nat) (junk junk_between : Nat → pixel_t)
    (timeout n : Nat) :
    (loop_state rand junk junk_between timeout n).frame_between
      = (animate_init rand junk junk_between).frame_between ∧
    (animate_init rand junk junk_between).frame_between.delay = 400 ∧
    (∀ y : Nat, y < 6 → ∀ x : Nat, x < 16 →
      (animate_init rand junk junk_between).frame_between.pixel (x + y * 16)
        = (animate_init rand junk junk_between).frame_between.pixel (0 + y * 16)) ∧
    ((step (loop_state rand junk junk_between timeout n).board
          (loop_state rand junk junk_between timeout n).active
          (loop_state rand junk junk_between timeout n).is_alive).is_alive = 0 →
      ∃ f : frame_t, f.delay ≠ 400 ∧
        (animate_body rand timeout (loop_state rand junk junk_between timeout n)).out
          = (loop_state rand junk junk_between timeout n).out
              ++ [(animate_init rand junk junk_between).frame_between, f] ∧
        (∀ k i j : Nat, i < 6 → j < 16 →
          ((animate_body rand timeout (loop_state rand junk junk_between timeout n)).board.get
            k).data i j = (fill_board ⟨fun _ _ => STATE_DEAD⟩ CONFIG_ALTERNATE).data i j)) ∧
    ((step (loop_state rand junk junk_between timeout n).board
          (loop_state rand junk junk_between timeout n).active
          (loop_state rand junk junk_between timeout n).is_alive).is_alive ≠ 0 →
      ∃ f : frame_t, f.delay ≠ 400 ∧
        (animate_body rand timeout (loop_state rand junk junk_between timeout n)).out
          = (loop_state rand junk junk_between timeout n).out ++ [f] ∧
        (animate_body rand timeout (loop_state rand junk junk_between timeout n)).board
          = (step (loop_state rand junk junk_between timeout n).board
              (loop_state rand junk junk_between timeout n).active
              (loop_state rand junk junk_between timeout n).is_alive).board) := by
  obtain ⟨hb, hf, ho⟩ := loop_state_inv rand junk junk_between timeout n
  obtain ⟨hd, hrow⟩ := init_between rand junk junk_between
  obtain ⟨f, hfd, hout⟩ := body_out rand timeout (loop_state rand junk junk_between timeout n)
  have hf400 : f.delay ≠ 400 := by
    rcases hfd with h | h
    · rw [h, hf]; decide
    · rw [h, ho]; decide
  refine ⟨hb, hd, ?_, ?_, ?_⟩
  · intro y hy x hx
    rw [hrow y hy x hx, hrow y hy 0 (by decide)]
  · intro h0
    refine ⟨f, hf400, ?_, ?_⟩
    · rw [hout, if_pos h0, hb]
      simp
    · intro k i j hi hj
      rw [body_board, if_pos h0, load_config_data _ _ k i j hi hj,
        fill_board_data _ _ i j hi hj]
  · intro h1
    refine ⟨f, hf400, ?_, ?_⟩
    · rw [hout, if_neg h1]
      simp
    · rw [body_board, if_neg h1]

/-! ## Claims about the glider and about termination -/

/-- C8 (as amended): loading `CONFIG_GLIDER` and calling `step` 4 times leaves, in the
active board, the cells (2,5), (3,6), (4,4), (4,5), (4,6) Alive (the Alive cells are exactly
those of the glider seed shifted one row down and one column right), the cells (2,4) and
(3,5) Dying, and every other cell Dead; this holds for every prior content of the boards and
either active flag. -/
theorem glider_after_four_steps (prior : boards_t) (active is_alive i j : Nat)
    (_ha : active ≤ 1) (hi : i < 6) (hj : j < 16) :
    ((step_times 4 ⟨load_config prior CONFIG_GLIDER, active, is_alive⟩).board.get
        (step_times 4 ⟨load_config prior CONFIG_GLIDER, active, is_alive⟩).active).data i j
      = (if (i, j) ∈ [(2, 5), (3, 6), (4, 4), (4, 5), (4, 6)] then STATE_ALIVE
          else if (i, j) ∈ [(2, 4), (3, 5)] then STATE_DYING else STATE_DEAD) ∧
    (((step_times 4 ⟨load_config prior CONFIG_GLIDER, active, is_alive⟩).board.get
        (step_times 4 ⟨load_config prior CONFIG_GLIDER, active, is_alive⟩).active).data i j
      = STATE_ALIVE ↔ glider_shifted i j = 1) := by
  rw [glider_four prior active is_alive i hi j hj]
  exact glider_4_cells i hi j hj

/-- Witness for C8 at the cell (3, 5), over the sample pair with `board[0]` active. -/
theorem glider_after_four_steps_witness :
    ((step_times 4 ⟨load_config sample_boards CONFIG_GLIDER, 0, 1⟩).board.get
        (step_times 4 ⟨load_config sample_boards CONFIG_GLIDER, 0, 1⟩).active).data 3 5
      = (if (3, 5) ∈ [(2, 5), (3, 6), (4, 4), (4, 5), (4, 6)] then STATE_ALIVE
          else if (3, 5) ∈ [(2, 4), (3, 5)] then STATE_DYING else STATE_DEAD) ∧
    (((step_times 4 ⟨load_config sample_boards CONFIG_GLIDER, 0, 1⟩).board.get
        (step_times 4 ⟨load_config sample_boards CONFIG_GLIDER, 0, 1⟩).active).data 3 5
      = STATE_ALIVE ↔ glider_shifted 3 5 = 1) :=
  glider_after_four_steps sample_boards 0 1 3 5 (by decide) (by decide) (by decide)

/-- Counterexample to C8 as stated: from boards that were all Dead, with `board[1]` active,
the cell (2, 4) is Dying after the fourth `step` while the fill of the shifted seed has a
Dead cell there, so the active board is not the fill of the shifted seed. -/
theorem glider_fourth_step_leaves_dying :
    ((step_times 4 ⟨load_config ⟨⟨fun _ _ => STATE_DEAD⟩, ⟨fun _ _ => STATE_DEAD⟩⟩
          CONFIG_GLIDER, 1, 1⟩).board.get
        (step_times 4 ⟨load_config ⟨⟨fun _ _ => STATE_DEAD⟩, ⟨fun _ _ => STATE_DEAD⟩⟩
          CONFIG_GLIDER, 1, 1⟩).active).data 2 4 = STATE_DYING ∧
    (fill_board ⟨fun _ _ => STATE_DEAD⟩ glider_shifted).data 2 4 = STATE_DEAD ∧
    ¬ (∀ i : Nat, i < 6 → ∀ j : Nat, j < 16 →
      ((step_times 4 ⟨load_config ⟨⟨fun _ _ => STATE_DEAD⟩, ⟨fun _ _ => STATE_DEAD⟩⟩
            CONFIG_GLIDER, 1, 1⟩).board.get
          (step_times 4 ⟨load_config ⟨⟨fun _ _ => STATE_DEAD⟩, ⟨fun _ _ => STATE_DEAD⟩⟩
            CONFIG_GLIDER, 1, 1⟩).active).data i j
        = (fill_board ⟨fun _ _ => STATE_DEAD⟩ glider_shifted).data i j) := by
  have h1 := glider_four ⟨⟨fun _ _ => STATE_DEAD⟩, ⟨fun _ _ => STATE_DEAD⟩⟩ 1 1 2 (by decide) 4
    (by decide)
  have h2 := fill_board_data ⟨fun _ _ => STATE_DEAD⟩ glider_shifted 2 4 (by decide) (by decide)
  refine ⟨by rw [h1]; decide, by rw [h2]; decide, ?_⟩
  intro h
  have h3 := h 2 (by decide) 4 (by decide)
  rw [h1, h2] at h3
  revert h3
  decide

/-- A loop of pixel stores: a pixel that no store addresses is kept, and a pixel that some
store addresses holds the stored value, when the stores to one index agree on the value. -/
theorem foldl_set_pixel {α : Type} (l : List α) (g : α → Nat) (c : α → pixel_t) (f : frame_t) :
    (∀ idx : Nat, (∀ q ∈ l, g q ≠ idx) →
      (l.foldl (fun frame a => frame.set (g a) (c a)) f).pixel idx = f.pixel idx) ∧
    ((∀ p ∈ l, ∀ q ∈ l, g p = g q → c p = c q) →
      ∀ p ∈ l, (l.foldl (fun frame a => frame.set (g a) (c a)) f).pixel (g p) = c p) := by
  induction l generalizing f with
  | nil => simp
  | cons a l ih =>
    obtain ⟨i1, i2⟩ := ih (f.set (g a) (c a))
    simp only [List.foldl_cons]
    constructor
    · intro idx hidx
      rw [i1 idx (fun q hq => hidx q (List.mem_cons_of_mem _ hq))]
      have : idx ≠ g a := fun h => hidx a (List.mem_cons_self _ _) h.symm
      simp [frame_t.set, this]
    · intro H p hp
      by_cases hex : ∃ q ∈ l, g q = g p
      · obtain ⟨q, hq, hqp⟩ := hex
        have hc : c q = c p := H q (List.mem_cons_of_mem _ hq) p hp hqp
        rw [← hqp, ← hc]
        exact i2 (fun u hu v hv => H u (List.mem_cons_of_mem _ hu) v (List.mem_cons_of_mem _ hv))
          q hq
      · have hno : ∀ q ∈ l, g q ≠ g p := fun q hq h => hex ⟨q, hq, h⟩
        have hpa : p = a := by
          rcases List.mem_cons.1 hp with h | h
          · exact h
          · exact absurd rfl (hno p h)
        rw [i1 (g p) hno, hpa]
        simp [frame_t.set]

/-- A double loop of pixel stores whose stores to one index agree on the value. -/
theorem foldl2_set_pixel (rs cs : List Nat) (g : Nat → Nat → Nat) (c : Nat → Nat → pixel_t)
    (f : frame_t)
    (H : ∀ y ∈ rs, ∀ x ∈ cs, ∀ y2 ∈ rs, ∀ x2 ∈ cs, g y x = g y2 x2 → c y x = c y2 x2) :
    ∀ y ∈ rs, ∀ x ∈ cs,
      (rs.foldl (fun frame y => cs.foldl (fun frame x => frame.set (g y x) (c y x)) frame)
        f).pixel (g y x) = c y x := by
  intro y hy x hx
  rw [foldl_cells (fun (frame : frame_t) (y x : Nat) => frame.set (g y x) (c y x))]
  exact (foldl_set_pixel (cells rs cs) (fun p : Nat × Nat => g p.1 p.2)
    (fun p : Nat × Nat => c p.1 p.2) f).2
    (fun p hp q hq h => H p.1 ((mem_cells rs cs p.1 p.2).1 hp).1 p.2
      ((mem_cells rs cs p.1 p.2).1 hp).2 q.1 ((mem_cells rs cs q.1 q.2).1 hq).1 q.2
      ((mem_cells rs cs q.1 q.2).1 hq).2 h)
    (y, x) ((mem_cells rs cs y x).2 ⟨hy, hx⟩)

/-- The pixel `fill_frame` leaves at index x + y * 16: the entry of the colour table at
the state of the cell (y, x). -/
theorem fill_frame_pixel (frame : frame_t) (b : board_t) (rand : Nat → Nat) (k y x : Nat)
    (hy : y < 6) (hx : x < 16) :
    (fill_frame frame b rand k).1.pixel (x + y * 16)
      = List.getD [(random_dead_color rand k).1,
          (random_color rand (random_dead_color rand k).2).1, PIXEL_DYING]
          (b.data y x) PIXEL_BLACK := by
  have h := foldl2_set_pixel (List.range HEIGHT) (List.range WIDTH) (fun y x => x + (y * WIDTH))
    (fun y x => List.getD [(random_dead_color rand k).1,
      (random_color rand (random_dead_color rand k).2).1, PIXEL_DYING] (b.data y x) PIXEL_BLACK)
    frame
    (by
      intro y1 h1 x1 h2 y2 h3 x2 h4 he
      simp only [WIDTH, HEIGHT, List.mem_range] at h1 h2 h3 h4 he
      have e1 : y1 = y2 := by omega
      have e2 : x1 = x2 := by omega
      rw [e1, e2])
    y (by simp [HEIGHT]; exact hy) x (by simp [WIDTH]; exact hx)
  simpa only [WIDTH] using h

/-- The pixel `fade_frame` leaves at index x + 16 * y: the three channels of the same
pixel of `frame`, scaled. -/
theorem fade_frame_pixel (frame_out frame : frame_t) (fade : Int) (y x : Nat)
    (hy : y < 6) (hx : x < 16) :
    (fade_frame frame_out frame fade).pixel (x + 16 * y)
      = ⟨fade_scale (frame.pixel (x + 16 * y)).r fade,
         fade_scale (frame.pixel (x + 16 * y)).g fade,
         fade_scale (frame.pixel (x + 16 * y)).b fade⟩ := by
  have h := foldl2_set_pixel (List.range HEIGHT) (List.range WIDTH) (fun y x => x + (WIDTH * y))
    (fun y x => ⟨fade_scale (frame.pixel (x + (WIDTH * y))).r fade,
      fade_scale (frame.pixel (x + (WIDTH * y))).g fade,
      fade_scale (frame.pixel (x + (WIDTH * y))).b fade⟩)
    frame_out
    (by
      intro y1 h1 x1 h2 y2 h3 x2 h4 he
      simp only at he ⊢
      rw [he])
    y (by simp [HEIGHT]; exact hy) x (by simp [WIDTH]; exact hx)
  simpa only [WIDTH] using h

/-! ## Claims about the fade scale and the colours -/

/-- C12: for every 8-bit channel value c in 0..255 the fade scale `(c * fade) / 256` at
`fade == 256` returns c, and so the loop that scales a whole frame, run with magnitude 256
on a frame of 8-bit channels, leaves every channel of every one of the 96 pixels unchanged. -/
theorem fade_scale_full_brightness (frame_out frame : frame_t)
    (hch : ∀ idx : Nat, idx < 96 →
      (frame.pixel idx).r ≤ 255 ∧ (frame.pixel idx).g ≤ 255 ∧ (frame.pixel idx).b ≤ 255) :
    (∀ c : Nat, c ≤ 255 → fade_scale c 256 = c) ∧
    (∀ y : Nat, y < 6 → ∀ x : Nat, x < 16 →
      (fade_frame frame_out frame 256).pixel (x + 16 * y) = frame.pixel (x + 16 * y)) := by
  have hs : ∀ c : Nat, c ≤ 255 → fade_scale c 256 = c := by
    intro c hc
    unfold fade_scale
    rw [Int.mul_tdiv_cancel _ (by decide)]
    omega
  refine ⟨hs, ?_⟩
  intro y hy x hx
  obtain ⟨h1, h2, h3⟩ := hch (x + 16 * y) (by omega)
  rw [fade_frame_pixel frame_out frame 256 y x hy hx, hs _ h1, hs _ h2, hs _ h3]

/-- Witness for C12: the frame whose pixels all hold (184, 172, 58). -/
theorem fade_scale_full_brightness_witness :
    (∀ c : Nat, c ≤ 255 → fade_scale c 256 = c) ∧
    (∀ y : Nat, y < 6 → ∀ x : Nat, x < 16 →
      (fade_frame dying_frame dying_frame 256).pixel (x + 16 * y)
        = dying_frame.pixel (x + 16 * y)) :=
  fade_scale_full_brightness dying_frame dying_frame (by decide)

/-- C13 (what the code does): every channel of `random_color` is `rand() % 255`, so it is
at most 254 and never 255, whatever the draws; every value from 0 to 254 is returned for
some draw. -/
theorem random_color_channels (rand : Nat → Nat) (k : Nat) :
    ((random_color rand k).1.r ≤ 254 ∧ (random_color rand k).1.g ≤ 254 ∧
      (random_color rand k).1.b ≤ 254) ∧
    ((random_color rand k).1.r ≠ 255 ∧ (random_color rand k).1.g ≠ 255 ∧
      (random_color rand k).1.b ≠ 255) ∧
    (∀ v : Nat, v ≤ 254 →
      (random_color (fun _ => v) k).1.r = v ∧ (random_color (fun _ => v) k).1.g = v ∧
      (random_color (fun _ => v) k).1.b = v) := by
  simp only [random_color]
  refine ⟨⟨?_, ?_, ?_⟩, ⟨?_, ?_, ?_⟩, ?_⟩
  all_goals omega

/-- C15: for every board with cells in {Dead, Alive, Dying} and every stream of draws,
`fill_frame` sets the pixel x + y * 16 to the frame's dead colour if the cell (y, x) is Dead,
to the frame's alive colour if it is Alive and to (184, 172, 58) if it is Dying, the two
colours being drawn once for the frame; the delay is unchanged, and each of the 96 pixels is
written (its value does not depend on the frame passed in). -/
theorem fill_frame_colours (frame : frame_t) (b : board_t) (rand : Nat → Nat) (k y x : Nat)
    (hb : ∀ i : Nat, i < 6 → ∀ j : Nat, j < 16 → b.data i j ≤ 2)
    (hy : y < 6) (hx : x < 16) :
    (fill_frame frame b rand k).1.pixel (x + y * 16)
      = (if b.data y x = STATE_DEAD then (random_dead_color rand k).1
          else if b.data y x = STATE_ALIVE then (random_color rand (k + 2)).1
          else ⟨184, 172, 58⟩) ∧
    (fill_frame frame b rand k).1.delay = frame.delay ∧
    (∀ idx : Nat, idx < 96 → ∀ other : frame_t,
      (fill_frame other b rand k).1.pixel idx = (fill_frame frame b rand k).1.pixel idx) := by
  refine ⟨?_, fill_frame_delay frame b rand k, ?_⟩
  · rw [fill_frame_pixel frame b rand k y x hy hx]
    have h := hb y hy x hx
    have hk : (random_dead_color rand k).2 = k + 2 := rfl
    rw [hk]
    generalize b.data y x = v at h
    interval_cases v <;> simp [STATE_DEAD, STATE_ALIVE, PIXEL_DYING]
  · intro idx hidx other
    have e : idx = idx % 16 + idx / 16 * 16 := by omega
    rw [e, fill_frame_pixel other b rand k (idx / 16) (idx % 16) (by omega) (by omega),
      fill_frame_pixel frame b rand k (idx / 16) (idx % 16) (by omega) (by omega)]

/-- Witness for C15: the glider one `step` after its seed, at the Dying cell (3, 3). -/
theorem fill_frame_colours_witness :
    (fill_frame dying_frame ⟨glider_1⟩ (fun n => n) 18).1.pixel (3 + 3 * 16)
      = (if (⟨glider_1⟩ : board_t).data 3 3 = STATE_DEAD then
            (random_dead_color (fun n => n) 18).1
          else if (⟨glider_1⟩ : board_t).data 3 3 = STATE_ALIVE then
            (random_color (fun n => n) (18 + 2)).1
          else ⟨184, 172, 58⟩) ∧
    (fill_frame dying_frame ⟨glider_1⟩ (fun n => n) 18).1.delay = dying_frame.delay ∧
    (∀ idx : Nat, idx < 96 → ∀ other : frame_t,
      (fill_frame other ⟨glider_1⟩ (fun n => n) 18).1.pixel idx
        = (fill_frame dying_frame ⟨glider_1⟩ (fun n => n) 18).1.pixel idx) :=
  fill_frame_colours dying_frame ⟨glider_1⟩ (fun n => n) 18 3 3 (by decide) (by decide)
    (by decide)

/-! ## Claims about the double buffer and the Dying state -/

/-- C14: for every board pair and active flag a in {0,1}, `step` leaves `board[a]`
unchanged, leaves in every cell of `board[1-a]` the next state computed from the old
`board[a]` (so a pair that differs only in the old `board[1-a]` gives the same cells), and
sets the active flag to 1-a. -/
theorem step_double_buffer (board : boards_t) (active is_alive : Nat) (ha : active ≤ 1) :
    (step board active is_alive).board.get active = board.get active ∧
    (∀ i : Nat, i < 6 → ∀ j : Nat, j < 16 →
      ((step board active is_alive).board.get (1 - active)).data i j
        = next_cell (board.get active) i j) ∧
    (∀ other : boards_t, other.get active = board.get active →
      ∀ i : Nat, i < 6 → ∀ j : Nat, j < 16 →
        ((step other active is_alive).board.get (1 - active)).data i j
          = ((step board active is_alive).board.get (1 - active)).data i j) ∧
    (step board active is_alive).active = 1 - active := by
  have hl : lnot active = 1 - active := by
    unfold lnot
    split <;> omega
  obtain ⟨k1, k2, _, k4⟩ := step_board board active is_alive
  rw [hl] at k2 k4
  refine ⟨k1, fun i hi j hj => k2 i j hi hj, ?_, k4⟩
  intro other ho i hi j hj
  obtain ⟨_, o2, _, _⟩ := step_board other active is_alive
  rw [hl] at o2
  rw [o2 i j hi hj, k2 i j hi hj, ho]

/-- Witness for C14 on the sample pair with `board[0]` active: `board[0]` keeps its stale
7 at (5, 3), and the old Alive cell (3, 3) of `board[1]` is overwritten with Dying, the
next state of the lone Alive cell (3, 3) of `board[0]`. -/
theorem step_double_buffer_witness :
    ((step sample_boards 0 1).board.get 0).data 5 3 = 7 ∧
    (sample_boards.get 1).data 3 3 = STATE_ALIVE ∧
    ((step sample_boards 0 1).board.get 1).data 3 3 = STATE_DYING ∧
    ((step sample_boards 0 1).board.get 0 = sample_boards.get 0 ∧
    (∀ i : Nat, i < 6 → ∀ j : Nat, j < 16 →
      ((step sample_boards 0 1).board.get (1 - 0)).data i j
        = next_cell (sample_boards.get 0) i j) ∧
    (∀ other : boards_t, other.get 0 = sample_boards.get 0 →
      ∀ i : Nat, i < 6 → ∀ j : Nat, j < 16 →
        ((step other 0 1).board.get (1 - 0)).data i j
          = ((step sample_boards 0 1).board.get (1 - 0)).data i j) ∧
    (step sample_boards 0 1).active = 1 - 0) :=
  ⟨by decide, by decide, by decide, step_double_buffer sample_boards 0 1 (by decide)⟩

/-- C18 (as amended): for every board pair and every cell that is Dying before a `step`,
the cell is Dead after that `step` unless it has exactly 3 Alive neighbours, in which case it
is Alive; in no case is it still Dying. -/
theorem step_dying_cell (board : boards_t) (active is_alive i j : Nat)
    (_ha : active ≤ 1) (hi : i < 6) (hj : j < 16)
    (hd : (board.get active).data i j = STATE_DYING) :
    (neighbours (board.get active) i j ≠ 3 →
      ((step board active is_alive).board.get (step board active is_alive).active).data i j
        = STATE_DEAD) ∧
    (neighbours (board.get active) i j = 3 →
      ((step board active is_alive).board.get (step board active is_alive).active).data i j
        = STATE_ALIVE) ∧
    ((step board active is_alive).board.get (step board active is_alive).active).data i j
      ≠ STATE_DYING := by
  rw [next_cell_step board active is_alive i j hi hj]
  simp only [next_cell, state_next, hd, STATE_DYING, STATE_DEAD, STATE_ALIVE]
  refine ⟨?_, ?_, ?_⟩
  · intro h3
    split
    · rfl
    · simp [h3]
  · intro h3
    simp [h3]
  · split
    · decide
    · split
      · decide
      · split <;> decide

/-- Witness for C18: the Dying cell (1, 4) of the glider one `step` after its seed has two
Alive neighbours and becomes Dead. -/
theorem step_dying_cell_witness :
    neighbours (glider_1_boards.get 0) (1 : Nat) (4 : Nat) = 2 ∧
    ((neighbours (glider_1_boards.get 0) (1 : Nat) (4 : Nat) ≠ 3 →
      ((step glider_1_boards 0 1).board.get (step glider_1_boards 0 1).active).data 1 4
        = STATE_DEAD) ∧
    (neighbours (glider_1_boards.get 0) (1 : Nat) (4 : Nat) = 3 →
      ((step glider_1_boards 0 1).board.get (step glider_1_boards 0 1).active).data 1 4
        = STATE_ALIVE) ∧
    ((step glider_1_boards 0 1).board.get (step glider_1_boards 0 1).active).data 1 4
      ≠ STATE_DYING) :=
  ⟨by decide, step_dying_cell glider_1_boards 0 1 1 4 (by decide) (by decide) (by decide)
    (by decide)⟩

/-- Counterexample to C18 as stated: in the glider one `step` after its seed the cell
(3, 3) is Dying and has 3 Alive neighbours; after the next `step` it is Alive, not Dead. -/
theorem step_dying_cell_reborn :
    (glider_1_boards.get 0).data 3 3 = STATE_DYING ∧
    neighbours (glider_1_boards.get 0) (3 : Nat) (3 : Nat) = 3 ∧
    ((step glider_1_boards 0 1).board.get (step glider_1_boards 0 1).active).data 3 3
      = STATE_ALIVE ∧
    ((step glider_1_boards 0 1).board.get (step glider_1_boards 0 1).active).data 3 3
      ≠ STATE_DEAD := by
  decide

/-! ## The two parts of the body of the loop of `animate` -/

theorem body_split (rand : Nat → Nat) (timeout : Nat) (s : anim_t) :
    animate_body rand timeout s = animate_fade timeout (animate_play rand s) := rfl

/-- What the first part of a pass leaves: the frame rendered from the board `step` left,
the boards reloaded when `step` found no Alive cell, and the transition frame written in
that case. -/
theorem play_fields (rand : Nat → Nat) (s : anim_t) :
    (animate_play rand s).frame
      = (fill_frame s.frame ((step s.board s.active s.is_alive).board.get
          (step s.board s.active s.is_alive).active) rand s.calls).1 ∧
    (animate_play rand s).board
      = (if (step s.board s.active s.is_alive).is_alive = 0 then
          load_config (step s.board s.active s.is_alive).board CONFIG_ALTERNATE
        else (step s.board s.active s.is_alive).board) ∧
    (animate_play rand s).out
      = s.out ++ (if (step s.board s.active s.is_alive).is_alive = 0 then [s.frame_between]
          else []) ∧
    (animate_play rand s).time_acc
      = (if (step s.board s.active s.is_alive).is_alive = 0 then
          (s.time_acc + s.frame_between.delay) % 4294967296 else s.time_acc) ∧
    (animate_play rand s).fade = s.fade ∧
    (animate_play rand s).fade_dir = s.fade_dir ∧
    (animate_play rand s).frame_out = s.frame_out ∧
    (animate_play rand s).active = (step s.board s.active s.is_alive).active := by
  simp only [animate_play, write_frame]
  split_ifs <;> simp

/-- What the second part of a pass leaves: it writes one frame, `frame_out` when the
magnitude is below 256 after the fade and `frame` otherwise, and keeps `frame` and the
boards. -/
theorem fade_fields (timeout : Nat) (s : anim_t) :
    (animate_fade timeout s).frame = s.frame ∧
    (animate_fade timeout s).board = s.board ∧
    (animate_fade timeout s).active = s.active ∧
    (animate_fade timeout s).out
      = s.out ++ [if (animate_fade timeout s).fade < 256 then (animate_fade timeout s).frame_out
          else (animate_fade timeout s).frame] := by
  simp only [animate_fade, write_frame, total_time]
  split_ifs <;> simp

/-- A pass that starts with the loop condition false changes neither the magnitude nor
the direction. -/
theorem body_idle (rand : Nat → Nat) (timeout : Nat) (s : anim_t) (h : ¬ s.fade > 0) :
    (animate_body rand timeout s).fade = s.fade ∧
    (animate_body rand timeout s).fade_dir = s.fade_dir := by
  simp only [animate_body, write_frame, total_time]
  split_ifs <;> simp_all <;> omega

/-! ## The fade magnitude -/

/-- At the loop condition the magnitude is 256 with direction 8, or the direction is -8 and
the magnitude is one of 247, 239, ..., 7, -1. -/
theorem fade_inv (rand : Nat → Nat) (junk junk_between : Nat → pixel_t) (timeout n : Nat) :
    ((loop_state rand junk junk_between timeout n).fade = 256 ∧
      (loop_state rand junk junk_between timeout n).fade_dir = 8) ∨
    ((loop_state rand junk junk_between timeout n).fade_dir = -8 ∧
      -1 ≤ (loop_state rand junk junk_between timeout n).fade ∧
      (loop_state rand junk junk_between timeout n).fade ≤ 247 ∧
      (loop_state rand junk junk_between timeout n).fade % 8 = 7) := by
  refine after_inv rand timeout
    (fun s => (s.fade = 256 ∧ s.fade_dir = 8) ∨
      (s.fade_dir = -8 ∧ -1 ≤ s.fade ∧ s.fade ≤ 247 ∧ s.fade % 8 = 7)) ?_ n _ (Or.inl ⟨rfl, rfl⟩)
  rintro s (⟨hf, hd⟩ | ⟨hd, h1, h2, h3⟩)
  · obtain ⟨b1, b2⟩ := body_running rand timeout s hf hd
    by_cases hA : (if (step s.board s.active s.is_alive).is_alive = 0 then
        (s.time_acc + s.frame_between.delay) % 4294967296 else s.time_acc) > timeout
    · obtain ⟨c1, c2⟩ := b1 hA
      exact Or.inr ⟨c2, by rw [c1]; decide, by rw [c1], by rw [c1]; decide⟩
    · obtain ⟨c1, c2, _⟩ := b2 hA
      exact Or.inl ⟨c1, c2⟩
  · by_cases hp : s.fade > 0
    · obtain ⟨c1, c2⟩ := body_fading rand timeout s hp (by omega)
      refine Or.inr ⟨by rw [c2, hd], ?_, ?_, ?_⟩ <;> rw [c1, hd] <;> omega
    · obtain ⟨c1, c2⟩ := body_idle rand timeout s hp
      exact Or.inr ⟨by rw [c2, hd], by rw [c1]; exact h1, by rw [c1]; exact h2,
        by rw [c1]; exact h3⟩

/-- When the loop ends within `fuel` passes, it ends in the state after `fuel` passes, and
the loop condition is false there. -/
theorem loop_some (rand : Nat → Nat) (timeout fuel : Nat) (s r : anim_t)
    (h : animate_loop rand timeout fuel s = some r) :
    r = animate_after rand timeout fuel s ∧ ¬ r.fade > 0 := by
  induction fuel generalizing s with
  | zero =>
    simp only [animate_loop] at h
    split at h
    · exact absurd h (by simp)
    · rename_i hs
      have e : s = r := Option.some.inj h
      subst e
      exact ⟨rfl, hs⟩
  | succ n ih =>
    simp only [animate_loop] at h
    split at h
    · rename_i hs
      rw [after_step _ _ _ _ hs]
      exact ih _ h
    · rename_i hs
      have e : s = r := Option.some.inj h
      subst e
      exact ⟨(after_done _ _ _ _ hs).symm, hs⟩

/-- With room for 600 more above the budget, the loop of `animate` ends, in the state after
some number k + 32 of passes, with magnitude -1. -/
theorem animate_ends (rand : Nat → Nat) (junk junk_between : Nat → pixel_t) (timeout : Nat)
    (ht : timeout + 600 < 4294967296) :
    ∃ k : Nat, (loop_state rand junk junk_between timeout (k + 32)).fade = -1 ∧
      animate rand junk junk_between timeout (k + 32)
        = some (loop_state rand junk junk_between timeout (k + 32)) := by
  obtain ⟨k, _, k2, k3⟩ := running_ends rand timeout ht (timeout + 200)
    (animate_init rand junk junk_between) (by omega) rfl rfl rfl
    (init_between rand junk junk_between).1
    (by
      have : (animate_init rand junk junk_between).time_acc = 200 := rfl
      omega)
  have hend := fading_ends rand timeout 30
    (animate_after rand timeout (k + 1) (animate_init rand junk junk_between))
    (by rw [k2]; norm_num) (by decide) k3
  rw [← after_add, show k + 1 + (30 + 1) = k + 32 by omega] at hend
  exact ⟨k, hend, loop_eq_after rand timeout (k + 32) _ (by rw [hend]; decide)⟩

/-! ## Claims about the fade -/

/-- C11 (as amended): for every time budget and every state of `animate` at the loop
condition, the fade magnitude is an integer in [-1, 256], namely 256 or one of 247, 239,
..., 7, -1; whenever the loop ends it ends with the magnitude equal to -1, and it does end
so for every budget with `timeout + 600 < 2^32`. -/
theorem fade_magnitude_range (rand : Nat → Nat) (junk junk_between : Nat → pixel_t)
    (timeout n : Nat) :
    (-1 ≤ (loop_state rand junk junk_between timeout n).fade ∧
      (loop_state rand junk junk_between timeout n).fade ≤ 256) ∧
    ((loop_state rand junk junk_between timeout n).fade = 256 ∨
      ((loop_state rand junk junk_between timeout n).fade ≤ 247 ∧
        (loop_state rand junk junk_between timeout n).fade % 8 = 7)) ∧
    (∀ (fuel : Nat) (s : anim_t),
      animate rand junk junk_between timeout fuel = some s → s.fade = -1) ∧
    (timeout + 600 < 4294967296 →
      ∃ (fuel : Nat) (s : anim_t),
        animate rand junk junk_between timeout fuel = some s ∧ s.fade = -1) := by
  refine ⟨?_, ?_, ?_, ?_⟩
  · rcases fade_inv rand junk junk_between timeout n with ⟨h, _⟩ | ⟨_, h1, h2, _⟩
    · rw [h]; decide
    · omega
  · rcases fade_inv rand junk junk_between timeout n with ⟨h, _⟩ | ⟨_, _, h2, h3⟩
    · exact Or.inl h
    · exact Or.inr ⟨h2, h3⟩
  · intro fuel s hs
    obtain ⟨e, hn⟩ := loop_some rand timeout fuel _ s hs
    have hi := fade_inv rand junk junk_between timeout fuel
    rw [loop_state, ← e] at hi
    rcases hi with ⟨h, _⟩ | ⟨_, h1, _, h3⟩ <;> omega
  · intro ht
    obtain ⟨k, h1, h2⟩ := animate_ends rand junk junk_between timeout ht
    exact ⟨k + 32, _, h2, h1⟩

/-- Counterexample to C11 as stated: with a budget of one second the loop of `animate` ends,
and the state it ends in has the magnitude -1, which is below 0 and is not 0. -/
theorem fade_ends_below_zero :
    ∃ n : Nat,
      animate (fun _ => 0) (fun _ => PIXEL_BLACK) (fun _ => PIXEL_BLACK) 1000 n
        = some (loop_state (fun _ => 0) (fun _ => PIXEL_BLACK) (fun _ => PIXEL_BLACK) 1000 n) ∧
      (loop_state (fun _ => 0) (fun _ => PIXEL_BLACK) (fun _ => PIXEL_BLACK) 1000 n).fade = -1 ∧
      ¬ (0 ≤ (loop_state (fun _ => 0) (fun _ => PIXEL_BLACK) (fun _ => PIXEL_BLACK) 1000 n).fade)
      ∧ (loop_state (fun _ => 0) (fun _ => PIXEL_BLACK) (fun _ => PIXEL_BLACK) 1000 n).fade
        ≠ 0 := by
  obtain ⟨k, h1, h2⟩ := animate_ends (fun _ => 0) (fun _ => PIXEL_BLACK) (fun _ => PIXEL_BLACK)
    1000 (by decide)
  exact ⟨k + 32, h2, h1, by rw [h1]; decide, by rw [h1]; decide⟩

/-- The frame a pass writes last when its magnitude ends below 256 is the rendered frame
dimmed by a magnitude strictly between 0 and 256. -/
theorem fade_frame_out (timeout : Nat) (s : anim_t) (h0 : 0 < s.fade)
    (h : (animate_fade timeout s).fade < 256) :
    ∃ f0 : Int, 0 < f0 ∧ f0 < 256 ∧
      (animate_fade timeout s).frame_out = fade_frame s.frame_out s.frame f0 := by
  by_cases hc : total_time s > timeout ∧ s.fade ≥ 256
  · refine ⟨255, by decide, by decide, ?_⟩
    simp [animate_fade, write_frame, hc]
  · have hlt : s.fade < 256 := by
      by_contra hge
      have h2 : ¬ (s.fade > 0 ∧ s.fade < 256) := fun hh => hge hh.2
      simp only [animate_fade, write_frame, if_neg hc, if_neg h2] at h
      exact hge h
    refine ⟨s.fade, h0, hlt, ?_⟩
    simp [animate_fade, write_frame, hc, h0, hlt]

/-- C16: in every pass of the loop of `animate` that starts with the fade not yet triggered
(magnitude 256) and finds the elapsed time at the test not above the budget, the magnitude
stays 256 and the frame written at the end of the pass is the frame produced by
`fill_frame`, with delay 200 and no channel scaled. -/
theorem running_pass_unscaled (rand : Nat → Nat) (junk junk_between : Nat → pixel_t)
    (timeout n : Nat)
    (hf : (loop_state rand junk junk_between timeout n).fade = 256)
    (hA : ¬ total_time (animate_play rand (loop_state rand junk junk_between timeout n))
      > timeout) :
    (animate_body rand timeout (loop_state rand junk junk_between timeout n)).fade = 256 ∧
    (animate_body rand timeout (loop_state rand junk junk_between timeout n)).out
      = (animate_play rand (loop_state rand junk junk_between timeout n)).out
        ++ [(fill_frame (loop_state rand junk junk_between timeout n).frame
              ((step (loop_state rand junk junk_between timeout n).board
                  (loop_state rand junk junk_between timeout n).active
                  (loop_state rand junk junk_between timeout n).is_alive).board.get
                (step (loop_state rand junk junk_between timeout n).board
                  (loop_state rand junk junk_between timeout n).active
                  (loop_state rand junk junk_between timeout n).is_alive).active)
              rand (loop_state rand junk junk_between timeout n).calls).1] ∧
    (fill_frame (loop_state rand junk junk_between timeout n).frame
        ((step (loop_state rand junk junk_between timeout n).board
            (loop_state rand junk junk_between timeout n).active
            (loop_state rand junk junk_between timeout n).is_alive).board.get
          (step (loop_state rand junk junk_between timeout n).board
            (loop_state rand junk junk_between timeout n).active
            (loop_state rand junk junk_between timeout n).is_alive).active)
        rand (loop_state rand junk junk_between timeout n).calls).1.delay = 200 := by
  have hd : (loop_state rand junk junk_between timeout n).fade_dir = 8 := by
    rcases fade_inv rand junk junk_between timeout n with ⟨_, h⟩ | ⟨_, _, h2, _⟩
    · exact h
    · omega
  obtain ⟨p1, _, _, p4, _, _, _, _⟩ :=
    play_fields rand (loop_state rand junk junk_between timeout n)
  obtain ⟨_, b2⟩ := body_running rand timeout _ hf hd
  rw [total_time, p4] at hA
  obtain ⟨c1, _, _⟩ := b2 hA
  obtain ⟨q1, _, _, q4⟩ :=
    fade_fields timeout (animate_play rand (loop_state rand junk junk_between timeout n))
  rw [← body_split] at q1 q4
  refine ⟨c1, ?_, ?_⟩
  · rw [q4, if_neg (by rw [c1]; decide), q1, p1]
  · rw [fill_frame_delay, (loop_state_inv rand junk junk_between timeout n).2.1]

/-- Witness for C16: the first pass of `animate` with a budget of one second, where the
elapsed time at the test is 200. -/
theorem running_pass_unscaled_witness :
    total_time (animate_play (fun _ => 0) first_state) = 200 ∧
    ((animate_body (fun _ => 0) 1000 first_state).fade = 256 ∧
    (animate_body (fun _ => 0) 1000 first_state).out
      = (animate_play (fun _ => 0) first_state).out
        ++ [(fill_frame first_state.frame
              ((step first_state.board
                  first_state.active
                  first_state.is_alive).board.get
                (step first_state.board
                  first_state.active
                  first_state.is_alive).active)
              (fun _ => 0) first_state.calls).1] ∧
    (fill_frame first_state.frame
        ((step first_state.board
            first_state.active
            first_state.is_alive).board.get
          (step first_state.board
            first_state.active
            first_state.is_alive).active)
        (fun _ => 0) first_state.calls).1.delay = 200) :=
  ⟨by decide,
   running_pass_unscaled (fun _ => 0) (fun _ => PIXEL_BLACK) (fun _ => PIXEL_BLACK) 1000 0
     (by decide) (by decide)⟩

/-! ## Claims about the order of a pass -/

/-- C17 (as amended): in every pass of the loop of `animate` the order is: step, render,
extinction check (with reseed), fade, emit. The regular frame of the pass is rendered from
the board as `step` left it, before the extinction branch runs; the pass writes the
transition frame (when `step` left no Alive cell) and then one frame, which is the rendered
frame or, when the magnitude ends below 256, that frame dimmed; in a pass where `step` left no
Alive cell the rendered board has no Alive cell, and the reseeded boards are first shown after
the `step` of the next pass. -/
theorem pass_order (rand : Nat → Nat) (timeout : Nat) (s : anim_t) :
    animate_body rand timeout s = animate_fade timeout (animate_play rand s) ∧
    (animate_body rand timeout s).frame
      = (fill_frame s.frame ((step s.board s.active s.is_alive).board.get
          (step s.board s.active s.is_alive).active) rand s.calls).1 ∧
    (animate_body rand timeout s).board
      = (if (step s.board s.active s.is_alive).is_alive = 0 then
          load_config (step s.board s.active s.is_alive).board CONFIG_ALTERNATE
        else (step s.board s.active s.is_alive).board) ∧
    (animate_body rand timeout s).out
      = s.out ++ (if (step s.board s.active s.is_alive).is_alive = 0 then [s.frame_between]
          else []) ++ [if (animate_body rand timeout s).fade < 256 then
            (animate_body rand timeout s).frame_out else (animate_body rand timeout s).frame] ∧
    (0 < s.fade → (animate_body rand timeout s).fade < 256 →
      ∃ f0 : Int, 0 < f0 ∧ f0 < 256 ∧
        (animate_body rand timeout s).frame_out
          = fade_frame s.frame_out (animate_body rand timeout s).frame f0) ∧
    ((step s.board s.active s.is_alive).is_alive = 0 →
      ∀ y : Nat, y < 6 → ∀ x : Nat, x < 16 →
        ((step s.board s.active s.is_alive).board.get
          (step s.board s.active s.is_alive).active).data y x ≠ STATE_ALIVE) := by
  obtain ⟨p1, p2, p3, _, p5, _, p7, _⟩ := play_fields rand s
  obtain ⟨q1, q2, _, q4⟩ := fade_fields timeout (animate_play rand s)
  rw [← body_split] at q1 q2 q4
  refine ⟨rfl, by rw [q1, p1], by rw [q2, p2], by rw [q4, p3], ?_, ?_⟩
  · intro h0 h
    obtain ⟨f0, a1, a2, a3⟩ := fade_frame_out timeout (animate_play rand s) (by rw [p5]; exact h0)
      (by rw [← body_split]; exact h)
    rw [← body_split, p7, ← q1] at a3
    exact ⟨f0, a1, a2, a3⟩
  · intro h
    exact (step_is_alive_flag s.board s.active s.is_alive).1 h

/-- Counterexample to C17 as stated: the pass from `dead_anim`, where `step` leaves no Alive
cell. The frame written after the transition frame has the dead colour (0, 236, 0) at pixel
2, the cell (0, 2), although that cell is Alive in the reseeded board, whose rendering would
have the alive colour (0, 0, 0) there. -/
theorem restart_pass_shows_extinct_board :
    (animate_body (fun _ => 0) 1000 dead_anim).out
      = [dead_anim.frame_between, (animate_body (fun _ => 0) 1000 dead_anim).frame] ∧
    (animate_body (fun _ => 0) 1000 dead_anim).frame.pixel 2 = ⟨0, 236, 0⟩ ∧
    ((animate_body (fun _ => 0) 1000 dead_anim).board.get
      (animate_body (fun _ => 0) 1000 dead_anim).active).data 0 2 = STATE_ALIVE ∧
    (fill_frame dead_anim.frame
      ((animate_body (fun _ => 0) 1000 dead_anim).board.get
        (animate_body (fun _ => 0) 1000 dead_anim).active) (fun _ => 0) 18).1.pixel 2
      = ⟨0, 0, 0⟩ := by
  refine ⟨?_, by decide, by decide, by decide⟩
  obtain ⟨_, _, p3, _⟩ := play_fields (fun _ => 0) dead_anim
  obtain ⟨_, _, _, q4⟩ := fade_fields 1000 (animate_play (fun _ => 0) dead_anim)
  rw [← body_split] at q4
  have h0 : (step dead_anim.board dead_anim.active dead_anim.is_alive).is_alive = 0 := by decide
  have hf : ¬ (animate_body (fun _ => 0) 1000 dead_anim).fade < 256 := by decide
  rw [q4, p3, if_pos h0, if_neg hf]
  rfl

/-! ## The tri-state invariant -/

theorem state_next_le_two (n previous : Nat) (h : previous ≤ 2) : state_next n previous ≤ 2 := by
  unfold state_next
  simp only [STATE_DEAD, STATE_ALIVE, STATE_DYING]
  split_ifs <;> omega

theorem config_default_bits :
    ∀ i : Nat, i < 6 → ∀ j : Nat, j < 16 → CONFIG_DEFAULT i j ≤ 1 := by
  decide

theorem config_alternate_bits :
    ∀ i : Nat, i < 6 → ∀ j : Nat, j < 16 → CONFIG_ALTERNATE i j ≤ 1 := by
  decide

/-- One `step` keeps the cells of the active board among 0, 1, 2. -/
theorem step_tri_state (board : boards_t) (active is_alive : Nat)
    (hb : ∀ i : Nat, i < 6 → ∀ j : Nat, j < 16 → (board.get active).data i j ≤ 2) :
    ∀ i : Nat, i < 6 → ∀ j : Nat, j < 16 →
      ((step board active is_alive).board.get (step board active is_alive).active).data i j
        ≤ 2 := by
  intro i hi j hj
  rw [next_cell_step board active is_alive i j hi hj]
  exact state_next_le_two _ _ (hb i hi j hj)

/-- At the loop condition of `animate` the cells of the active board are among 0, 1, 2. -/
theorem loop_tri_state (rand : Nat → Nat) (junk junk_between : Nat → pixel_t)
    (timeout n : Nat) :
    ∀ i : Nat, i < 6 → ∀ j : Nat, j < 16 →
      ((loop_state rand junk junk_between timeout n).board.get
        (loop_state rand junk junk_between timeout n).active).data i j ≤ 2 := by
  refine after_inv rand timeout
    (fun s => ∀ i : Nat, i < 6 → ∀ j : Nat, j < 16 → (s.board.get s.active).data i j ≤ 2)
    ?_ n _ ?_
  · intro s hs i hi j hj
    rw [body_board, body_active]
    split
    · rw [load_config_data _ _ _ i j hi hj]
      have := config_alternate_bits i hi j hj
      omega
    · have e : lnot s.active = (step s.board s.active s.is_alive).active := rfl
      rw [e]
      exact step_tri_state s.board s.active s.is_alive hs i hi j hj
  · intro i hi j hj
    have e : (animate_init rand junk junk_between).board
        = load_config ⟨⟨fun _ _ => STATE_DEAD⟩, ⟨fun _ _ => STATE_DEAD⟩⟩ CONFIG_DEFAULT := rfl
    rw [e, load_config_data _ _ _ i j hi hj]
    have := config_default_bits i hi j hj
    omega

/-- C20: the tri-state invariant holds on every reachable board. `fill_board` from a seed with
entries in {0,1} yields only cells in {0,1}; `step` applied to a board whose cells are all in
{0,1,2} yields a board whose cells are all in {0,1,2}; hence in every pass of the loop of
`animate` the active board has cells in {0,1,2}, the board handed to `fill_frame` indexes
inside the 3-entry table `colors`, and for every cell the row and column indices computed by
`neighbours` are inside 0..5 and 0..15. -/
theorem tri_state_invariant (rand : Nat → Nat) (junk junk_between : Nat → pixel_t)
    (timeout n : Nat) :
    (∀ (config : Nat → Nat → Nat) (b : board_t),
      (∀ i : Nat, i < 6 → ∀ j : Nat, j < 16 → config i j = 0 ∨ config i j = 1) →
      ∀ i : Nat, i < 6 → ∀ j : Nat, j < 16 →
        (fill_board b config).data i j = 0 ∨ (fill_board b config).data i j = 1) ∧
    (∀ (board : boards_t) (active is_alive : Nat), active ≤ 1 →
      (∀ i : Nat, i < 6 → ∀ j : Nat, j < 16 → (board.get active).data i j ≤ 2) →
      ∀ i : Nat, i < 6 → ∀ j : Nat, j < 16 →
        ((step board active is_alive).board.get (step board active is_alive).active).data i j
          ≤ 2) ∧
    (∀ i : Nat, i < 6 → ∀ j : Nat, j < 16 →
      ((loop_state rand junk junk_between timeout n).board.get
        (loop_state rand junk junk_between timeout n).active).data i j ≤ 2) ∧
    (∀ y : Nat, y < 6 → ∀ x : Nat, x < 16 →
      ((step (loop_state rand junk junk_between timeout n).board
          (loop_state rand junk junk_between timeout n).active
          (loop_state rand junk junk_between timeout n).is_alive).board.get
        (step (loop_state rand junk junk_between timeout n).board
          (loop_state rand junk junk_between timeout n).active
          (loop_state rand junk junk_between timeout n).is_alive).active).data y x < 3) ∧
    (∀ row : Nat, row < 6 → ∀ col : Nat, col < 16 →
      ∀ i ∈ [(row : Int) - 1, (row : Int), (row : Int) + 1],
      ∀ j ∈ [(col : Int) - 1, (col : Int), (col : Int) + 1],
        (0 ≤ (if i < 0 then i + (HEIGHT : Int) else Int.tmod i HEIGHT) ∧
          (if i < 0 then i + (HEIGHT : Int) else Int.tmod i HEIGHT) < HEIGHT) ∧
        (0 ≤ (if j < 0 then j + (WIDTH : Int) else Int.tmod j WIDTH) ∧
          (if j < 0 then j + (WIDTH : Int) else Int.tmod j WIDTH) < WIDTH)) := by
  refine ⟨?_, ?_, loop_tri_state rand junk junk_between timeout n, ?_, ?_⟩
  · intro config b hc i hi j hj
    rw [fill_board_data b config i j hi hj]
    exact hc i hi j hj
  · intro board active is_alive _ hb
    exact step_tri_state board active is_alive hb
  · intro y hy x hx
    have := step_tri_state _ _ (loop_state rand junk junk_between timeout n).is_alive
      (loop_tri_state rand junk junk_between timeout n) y hy x hx
    omega
  · intro row hr col hc i hi j hj
    have hi2 : -6 ≤ i := by
      simp only [List.mem_cons, List.mem_singleton, List.not_mem_nil, or_false] at hi
      omega
    have hj2 : -16 ≤ j := by
      simp only [List.mem_cons, List.mem_singleton, List.not_mem_nil, or_false] at hj
      omega
    rw [wrap_row i hi2, wrap_col j hj2]
    simp only [HEIGHT, WIDTH, Nat.cast_ofNat]
    omega

/-! ## Refinement of Conway's game -/

theorem alive_around_proj (b : board_t) (row col : Nat) :
    alive_around b row col = life_neighbours (proj b) row col := rfl

/-- The state chosen by the code is Alive exactly under the rule B3/S23. -/
theorem state_next_alive (n previous : Nat) :
    state_next n previous = STATE_ALIVE ↔ n = 3 ∨ (previous = STATE_ALIVE ∧ n = 2) := by
  unfold state_next
  simp only [STATE_DEAD, STATE_ALIVE, STATE_DYING]
  by_cases h2 : n = 2
  · subst h2
    by_cases hp : previous = 2
    · simp [hp]
    · simp [hp]
  · by_cases h3 : n = 3
    · simp [h3]
    · have hn : n < 2 ∨ n > 3 := by omega
      simp only [h2, h3, hn, if_false, if_true, or_false, and_false, false_or]
      split <;> simp

/-- The projection of the next state of a cell is its next generation in Conway's game. -/
theorem next_cell_life (b : board_t) (i j : Nat) (hi : i < 6) (hj : j < 16) :
    decide (next_cell b i j = STATE_ALIVE) = life_generation (proj b) i j := by
  have h := state_next_alive (neighbours b i j) (b.data i j)
  have hn : neighbours b i j = life_neighbours (proj b) i j := by
    rw [neighbours_eq b i j hi hj, alive_around_proj]
  have hp : proj b i j = true ↔ b.data i j = STATE_ALIVE := by simp [proj]
  unfold life_generation
  rw [Bool.eq_iff_iff]
  simp only [decide_eq_true_eq, Bool.or_eq_true, Bool.and_eq_true]
  rw [hp, ← hn]
  exact h

/-- A generation of Conway's game on the torus reads the 6x16 cells only. -/
theorem life_generation_congr (g g2 : Nat → Nat → Bool)
    (h : ∀ i : Nat, i < 6 → ∀ j : Nat, j < 16 → g i j = g2 i j) :
    ∀ i : Nat, i < 6 → ∀ j : Nat, j < 16 → life_generation g i j = life_generation g2 i j := by
  intro i hi j hj
  have hn : life_neighbours g i j = life_neighbours g2 i j := by
    unfold life_neighbours
    apply List.countP_congr
    intro d _
    have h1 : (((i : Int) + d.1) % 6).toNat < 6 := by omega
    have h2 : (((j : Int) + d.2) % 16).toNat < 16 := by omega
    rw [h _ h1 _ h2]
  unfold life_generation
  rw [hn, h i hi j hj]

theorem life_iterate_congr (k : Nat) (g g2 : Nat → Nat → Bool)
    (h : ∀ i : Nat, i < 6 → ∀ j : Nat, j < 16 → g i j = g2 i j) :
    ∀ i : Nat, i < 6 → ∀ j : Nat, j < 16 → life_iterate k g i j = life_iterate k g2 i j := by
  induction k generalizing g g2 with
  | zero => exact h
  | succ k ih => exact ih _ _ (life_generation_congr g g2 h)

/-- One `step` is one generation of Conway's game under the projection. -/
theorem step_life (board : boards_t) (active is_alive : Nat) :
    ∀ i : Nat, i < 6 → ∀ j : Nat, j < 16 →
      proj ((step board active is_alive).board.get (step board active is_alive).active) i j
        = life_generation (proj (board.get active)) i j := by
  intro i hi j hj
  unfold proj
  rw [next_cell_step board active is_alive i j hi hj]
  exact next_cell_life (board.get active) i j hi hj

/-- After `k` calls of `step` the projection of the active board is the `k`-th generation
of the projection of the board the calls started from. -/
theorem step_times_life (k : Nat) (s : step_t) :
    ∀ i : Nat, i < 6 → ∀ j : Nat, j < 16 →
      proj ((step_times k s).board.get (step_times k s).active) i j
        = life_iterate k (proj (s.board.get s.active)) i j := by
  induction k generalizing s with
  | zero => intro i _ j _; rfl
  | succ k ih =>
    intro i hi j hj
    simp only [step_times, life_iterate]
    rw [ih (step s.board s.active s.is_alive) i hi j hj]
    exact life_iterate_congr k _ _ (step_life s.board s.active s.is_alive) i hi j hj

/-- C19: `step` refines Conway's Game of Life on the 16x6 torus. With `proj` mapping Alive
to live and Dead and Dying to dead, for every board with cells in {Dead, Alive, Dying} the
projection of the board produced by `step` is the B3/S23 generation of the projection of the
input board, and so after any number of calls; two boards with the same projection (they
differ in Dying cells only) therefore have the same Alive cells in every later generation. -/
theorem step_refines_life (board : boards_t) (active is_alive : Nat) (_ha : active ≤ 1)
    (_hb : ∀ i : Nat, i < 6 → ∀ j : Nat, j < 16 → (board.get active).data i j ≤ 2) :
    (∀ i : Nat, i < 6 → ∀ j : Nat, j < 16 →
      proj ((step board active is_alive).board.get (step board active is_alive).active) i j
        = life_generation (proj (board.get active)) i j) ∧
    (∀ k : Nat, ∀ i : Nat, i < 6 → ∀ j : Nat, j < 16 →
      proj ((step_times k ⟨board, active, is_alive⟩).board.get
          (step_times k ⟨board, active, is_alive⟩).active) i j
        = life_iterate k (proj (board.get active)) i j) ∧
    (∀ other : boards_t,
      (∀ i : Nat, i < 6 → ∀ j : Nat, j < 16 →
        proj (other.get active) i j = proj (board.get active) i j) →
      ∀ k : Nat, ∀ i : Nat, i < 6 → ∀ j : Nat, j < 16 →
        proj ((step_times k ⟨other, active, is_alive⟩).board.get
            (step_times k ⟨other, active, is_alive⟩).active) i j
          = proj ((step_times k ⟨board, active, is_alive⟩).board.get
            (step_times k ⟨board, active, is_alive⟩).active) i j) := by
  refine ⟨step_life board active is_alive, ?_, ?_⟩
  · intro k
    exact step_times_life k ⟨board, active, is_alive⟩
  · intro other ho k i hi j hj
    rw [step_times_life k ⟨other, active, is_alive⟩ i hi j hj,
      step_times_life k ⟨board, active, is_alive⟩ i hi j hj]
    exact life_iterate_congr k _ _ ho i hi j hj

/-- Witness for C19: the glider one `step` after its seed, a board with two Dying cells. -/
theorem step_refines_life_witness :
    (glider_1_boards.get 0).data 3 3 = STATE_DYING ∧
    ((∀ i : Nat, i < 6 → ∀ j : Nat, j < 16 →
      proj ((step glider_1_boards 0 1).board.get (step glider_1_boards 0 1).active) i j
        = life_generation (proj (glider_1_boards.get 0)) i j) ∧
    (∀ k : Nat, ∀ i : Nat, i < 6 → ∀ j : Nat, j < 16 →
      proj ((step_times k ⟨glider_1_boards, 0, 1⟩).board.get
          (step_times k ⟨glider_1_boards, 0, 1⟩).active) i j
        = life_iterate k (proj (glider_1_boards.get 0)) i j) ∧
    (∀ other : boards_t,
      (∀ i : Nat, i < 6 → ∀ j : Nat, j < 16 →
        proj (other.get 0) i j = proj (glider_1_boards.get 0) i j) →
      ∀ k : Nat, ∀ i : Nat, i < 6 → ∀ j : Nat, j < 16 →
        proj ((step_times k ⟨other, 0, 1⟩).board.get
            (step_times k ⟨other, 0, 1⟩).active) i j
          = proj ((step_times k ⟨glider_1_boards, 0, 1⟩).board.get
            (step_times k ⟨glider_1_boards, 0, 1⟩).active) i j)) :=
  ⟨by decide, step_refines_life glider_1_boards 0 1 (by decide) (by decide)⟩

/-! ## The run of the boards and of the accumulator -/

end GameOfLife
